import Mathlib

/-!
Verification of the TinySCM interpreter (a tree-walking Scheme interpreter).

This file gives a shallow embedding, in Lean 4, of the parts of the
interpreter that the verified claims are about:

* the value universe and the environment/frame store
  (`internal_ds.py`: `Pair`, `nil`, `Frame`, `Environment`, the procedure
  classes, `Promise`, `TailPromise`);
* the evaluator and its special-form handlers, including the tail-call
  trampoline (`eval_apply.py`);
* the numeric and list primitives the claims mention
  (`primitive_procs.py`);
* the parser's list grammar (`scm_parser.py`).

Conventions of the embedding:

* Python's heap of mutable `Frame` objects is modelled by a `Store`
  (a list of frames, indexed by allocation number); an `Environment`'s
  frame chain is a list of store indices, youngest first.  Every stateful
  operation has type `M α = Store → Except Err α × Store`: the store is
  returned even when an exception is raised, because Python exceptions
  leave earlier mutations in place.
* Python exceptions are the constructors of `Err`:  `SchemeError`,
  `SyntaxError`, `TypeError`, `ZeroDivisionError`, `EOFError`,
  `AttributeError` are each modelled; `Err.fuel` is the out-of-fuel
  marker of the embedding (the host recursion limit surrogate).
* Python `int` is `Int`; Python `float` is modelled by an exact rational
  (`ℚ`).  This is faithful on every value appearing in the statements
  below (small integers and halves, which IEEE doubles represent
  exactly); an operation whose float result is irrational
  (`math.pow` with a non-integral exponent) is mapped to the explicit
  error `Err.nonRationalFloat` and is outside the model.
* Python `str` values are split by the leading-quote convention of the
  source (`is_scheme_string` / `is_scheme_symbol`) into the two
  constructors `Value.str` (content stored without the surrounding
  quotes) and `Value.sym`.
-/

namespace TinySCM

/-- Host and Scheme exceptions.  `scheme` is `SchemeError`; `synErr` is a
parser `SyntaxError`; `hostTypeError`, `hostZeroDiv`, `eofError` and
`attrError` are the corresponding Python exceptions; `nonRationalFloat`
marks float results outside the exact-rational model; `fuel` is the
embedding's out-of-fuel marker. -/
inductive Err where
  | scheme (msg : String)
  | synErr (msg : String)
  | hostTypeError (msg : String)
  | hostZeroDiv
  | eofError
  | attrError (msg : String)
  | nonRationalFloat (msg : String)
  | fuel
deriving DecidableEq

/-- The primitive operations modelled from `primitive_procs.py` (a
representative subset of `PRIMITIVE_PROCS`: the ones the claims are
about). -/
inductive PrimOp where
  | add | sub | mul | div | abs | expt | modulo | quotient | remainder
  | numEq | lt | gt | le | ge
  | isNumber | force | car | cdr | cons | list
deriving DecidableEq

/-- An environment is the chain of store indices of its frames, youngest
first (`Environment.frames` in `internal_ds.py`). -/
abbrev Env : Type := List Nat

/-- The Scheme value universe (`internal_ds.py` §"Pair and List",
§"Procedures", §"Promise", plus the Python atoms it documents:
number = int or float, symbol = string, boolean = bool,
unspecified = None). -/
inductive Value where
  | bool (b : Bool)
  | int (n : Int)
  | real (q : ℚ)
  | str (s : String)
  | sym (s : String)
  | nil
  | unspec
  | pair (first rest : Value)
  | primProc (op : PrimOp) (name : String) (useEnv : Bool)
  | lambdaProc (params body : Value) (env : Env)
  | dlambdaProc (params body : Value)
  | macProc (params body : Value) (env : Env)
  | promise (expr : Value) (env : Env)
  | tailPromise (expr : Value) (env : Env)
deriving DecidableEq

/-- A frame is a mapping from symbols to values (`Frame.bindings`, a
Python dict), modelled as an association list without duplicate keys. -/
abbrev Frame : Type := List (String × Value)

/-- The heap of all allocated frames; a frame's identity is its index. -/
abbrev Store : Type := List Frame

/-- Stateful computations: Python code mutating frames and possibly
raising.  The store is returned in the error case too (exceptions do not
roll mutations back). -/
def M (α : Type) : Type := Store → Except Err α × Store

instance : Monad M where
  pure a := fun st => (.ok a, st)
  bind x f := fun st =>
    match x st with
    | (.ok a, st') => f a st'
    | (.error e, st') => (.error e, st')

/-- Raises exception `e` (the store is kept). -/
def raiseM {α : Type} (e : Err) : M α := fun st => (.error e, st)

/-- Lifts a pure fallible computation into `M`. -/
def liftE {α : Type} (x : Except Err α) : M α := fun st => (x, st)

/-! ## Type predicates (`primitive_procs.py` §"Type Checking") -/

/-- Embeds `is_scheme_true`: all values in Scheme are true except `False`. -/
def isSchemeTrue : Value → Bool
  | .bool false => false
  | _ => true

/-- Embeds `is_scheme_false`: only `False` is false in Scheme. -/
def isSchemeFalse : Value → Bool
  | .bool false => true
  | _ => false

/-- Embeds `is_scheme_boolean`. -/
def isSchemeBoolean : Value → Bool
  | .bool _ => true
  | _ => false

/-- Python's `isinstance(x, numbers.Real)`.  The host treats `bool` as a
subtype of the reals, which is why `is_scheme_number` must exclude
booleans explicitly. -/
def isRealInstance : Value → Bool
  | .bool _ => true
  | .int _ => true
  | .real _ => true
  | _ => false

/-- Embeds `is_scheme_number`: `isinstance(x, numbers.Real) and not
is_scheme_boolean(x)`. -/
def isSchemeNumber (x : Value) : Bool :=
  isRealInstance x && !isSchemeBoolean x

/-- Embeds `is_scheme_list`: a finite chain of Pairs ended by nil. -/
def isSchemeList : Value → Bool
  | .nil => true
  | .pair _ r => isSchemeList r
  | _ => false

/-- Embeds `is_scheme_null`. -/
def isSchemeNull : Value → Bool
  | .nil => true
  | _ => false

/-- Embeds `is_scheme_pair`. -/
def isSchemePair : Value → Bool
  | .pair _ _ => true
  | _ => false

/-- Embeds `is_scheme_string` (a Python str starting with a quote
character; the `Value.str` constructor carries exactly those). -/
def isSchemeString : Value → Bool
  | .str _ => true
  | _ => false

/-- Embeds `is_scheme_symbol` (a Python str not starting with a quote). -/
def isSchemeSymbol : Value → Bool
  | .sym _ => true
  | _ => false

/-- Embeds `internal_ds.is_primitive_procedure`. -/
def isPrimitiveProcedure : Value → Bool
  | .primProc _ _ _ => true
  | _ => false

/-- Embeds `is_scheme_procedure` / `isinstance(x, Procedure)`. -/
def isSchemeProcedure : Value → Bool
  | .primProc _ _ _ => true
  | .lambdaProc _ _ _ => true
  | .dlambdaProc _ _ => true
  | .macProc _ _ _ => true
  | _ => false

/-- Embeds `is_scheme_promise`: `isinstance(obj, Promise)`.  A
`TailPromise` is a `Promise` subclass, so it satisfies the predicate. -/
def isSchemePromise : Value → Bool
  | .promise _ _ => true
  | .tailPromise _ _ => true
  | _ => false

/-- Whether a value is a `TailPromise` (used to state the trampoline
contract). -/
def isTailPromiseV : Value → Bool
  | .tailPromise _ _ => true
  | _ => false

/-- Embeds `eval_apply.is_self_evaluating`: booleans, numbers, the empty
list, strings, and `None`. -/
def isSelfEvaluating (expr : Value) : Bool :=
  isSchemeBoolean expr || isSchemeNumber expr || isSchemeNull expr ||
    isSchemeString expr || expr == .unspec

/-- Embeds `eval_apply.is_scheme_variable`. -/
def isSchemeVariable (x : Value) : Bool := isSchemeSymbol x

/-! ## Printing (`internal_ds.repl_str`, `Pair.__str__`, Python `str`)

Only used to build error-message strings.  `reprAux true` renders a
value as `repl_str` does; `reprAux false` renders the tail of a pair
chain as the loop of `Pair.__str__` does.  The decimal rendering of a
float and the escape processing inside string literals are simplified
(no claim depends on them). -/

/-- Python `type(x).__name__` on the modelled universe. -/
def typeName : Value → String
  | .bool _ => "bool"
  | .int _ => "int"
  | .real _ => "float"
  | .str _ => "str"
  | .sym _ => "str"
  | .nil => "nil"
  | .unspec => "NoneType"
  | .pair _ _ => "Pair"
  | .primProc _ _ _ => "PrimitiveProcedure"
  | .lambdaProc _ _ _ => "LambdaProcedure"
  | .dlambdaProc _ _ => "DLambdaProcedure"
  | .macProc _ _ _ => "MacroProcedure"
  | .promise _ _ => "Promise"
  | .tailPromise _ _ => "TailPromise"

/-- Decimal-ish rendering of the rational model of a float. -/
def ratStr (q : ℚ) : String :=
  if q.den = 1 then toString q.num ++ ".0"
  else toString q.num ++ "/" ++ toString q.den

/-- Renders a value (`mode = true`: `repl_str`; `mode = false`: the
rest-of-chain loop of `Pair.__str__`, which prints `" . tail)"` for an
improper tail). -/
def reprAux : Bool → Value → String
  | true, .bool true => "#t"
  | true, .bool false => "#f"
  | true, .unspec => "undefined"
  | true, .str s => "\"" ++ s ++ "\""
  | true, .sym s => s
  | true, .int n => toString n
  | true, .real q => ratStr q
  | true, .nil => "()"
  | true, .pair a r => "(" ++ reprAux true a ++ reprAux false r
  | true, .primProc _ name _ => "#[" ++ name ++ "]"
  | true, .lambdaProc p b _ => "(lambda " ++ reprAux true p ++ reprAux false b
  | true, .macProc p b _ => "(lambda " ++ reprAux true p ++ reprAux false b
  | true, .dlambdaProc p b => "(dlambda " ++ reprAux true p ++ reprAux false b
  | true, .promise e _ =>
      "#[promise (" ++ (if e == .unspec then "" else "not ") ++ "forced)]"
  | true, .tailPromise e _ =>
      "#[promise (" ++ (if e == .unspec then "" else "not ") ++ "forced)]"
  | false, .nil => ")"
  | false, .pair b r => " " ++ reprAux true b ++ reprAux false r
  | false, .bool true => " . #t)"
  | false, .bool false => " . #f)"
  | false, .unspec => " . undefined)"
  | false, .str s => " . \"" ++ s ++ "\")"
  | false, .sym s => " . " ++ s ++ ")"
  | false, .int n => " . " ++ toString n ++ ")"
  | false, .real q => " . " ++ ratStr q ++ ")"
  | false, .primProc _ name _ => " . #[" ++ name ++ "])"
  | false, .lambdaProc p b _ =>
      " . (lambda " ++ reprAux true p ++ reprAux false b ++ ")"
  | false, .macProc p b _ =>
      " . (lambda " ++ reprAux true p ++ reprAux false b ++ ")"
  | false, .dlambdaProc p b =>
      " . (dlambda " ++ reprAux true p ++ reprAux false b ++ ")"
  | false, .promise e _ =>
      " . #[promise (" ++ (if e == .unspec then "" else "not ") ++ "forced)])"
  | false, .tailPromise e _ =>
      " . #[promise (" ++ (if e == .unspec then "" else "not ") ++ "forced)])"

/-- Embeds `repl_str`. -/
def reprStr (v : Value) : String := reprAux true v

/-- Python `str(...)` (only differs from `repl_str` on booleans, `None`
and strings, per the source's docstring). -/
def pyStr : Value → String
  | .bool true => "True"
  | .bool false => "False"
  | .unspec => "None"
  | .str s => "\"" ++ s ++ "\""
  | v => reprStr v

/-! ## Exact-rational float model

The Batteries `Rat.add` etc. are `@[irreducible]`, so the arithmetic is
written out through `Rat.divInt` (which evaluates); the lemmas after the
definitions show each formula agrees with the field operations of `ℚ`. -/

/-- Numeric value of an operand that passed `_check_nums` (ints and
floats only; other constructors are unreachable after the check). -/
def toQ : Value → ℚ
  | .int n => Rat.ofInt n
  | .real q => q
  | _ => 0

def qAdd (a b : ℚ) : ℚ :=
  Rat.divInt (a.num * (b.den : Int) + b.num * (a.den : Int))
    ((a.den : Int) * (b.den : Int))

def qSub (a b : ℚ) : ℚ :=
  Rat.divInt (a.num * (b.den : Int) - b.num * (a.den : Int))
    ((a.den : Int) * (b.den : Int))

def qMul (a b : ℚ) : ℚ :=
  Rat.divInt (a.num * b.num) ((a.den : Int) * (b.den : Int))

def qDiv (a b : ℚ) : ℚ :=
  Rat.divInt (a.num * (b.den : Int)) ((a.den : Int) * b.num)

def qAbs (a : ℚ) : ℚ := if Rat.blt a 0 then Rat.neg a else a

def qpowNat (q : ℚ) : Nat → ℚ
  | 0 => 1
  | n+1 => qMul q (qpowNat q n)

def qInv (a : ℚ) : ℚ := Rat.divInt (a.den : Int) a.num

def qpowInt (q : ℚ) (n : Int) : ℚ :=
  if 0 ≤ n then qpowNat q n.toNat else qInv (qpowNat q (-n).toNat)

def ipow (a : Int) : Nat → Int
  | 0 => 1
  | n+1 => a * ipow a n

/-! ## Frames and environments (`internal_ds.py` §"Environment") -/

/-- Looks a symbol up in a frame's bindings (Python dict lookup). -/
def frameLookup : Frame → String → Option Value
  | [], _ => none
  | (k, v) :: rest, s => if k = s then some v else frameLookup rest s

/-- Embeds `Frame.add_binding` / `Frame.set_var` (dict assignment:
overwrite the existing entry, otherwise append). -/
def frameSet : Frame → String → Value → Frame
  | [], s, v => [(s, v)]
  | (k, w) :: rest, s, v =>
      if k = s then (s, v) :: rest else (k, w) :: frameSet rest s v

/-- Python's `var in frame.bindings.keys()`. -/
def frameContains (f : Frame) (s : String) : Bool :=
  (frameLookup f s).isSome

/-- Reads the frame at store index `i` (dangling indices never arise
from the modelled API; the default  is the empty frame). -/
def getFrame (st : Store) (i : Nat) : Frame := st.getD i []

def setFrame (st : Store) (i : Nat) (f : Frame) : Store := st.set i f

def readFrame (i : Nat) : M Frame := fun st => (.ok (getFrame st i), st)

def writeFrame (i : Nat) (f : Frame) : M Unit :=
  fun st => (.ok (), setFrame st i f)

/-- Allocates a fresh frame object; its identity is its store index. -/
def allocFrame (f : Frame) : M Nat :=
  fun st => (.ok st.length, st ++ [f])

/-- Embeds `Environment.define_variable`: bind in the youngest frame.
An empty chain would be Python's `nil.first` attribute error; the
chain is never empty in the source. -/
def defineVariable (env : Env) (s : String) (v : Value) : M Unit :=
  match env with
  | [] => raiseM (.attrError "nil object has no attribute first")
  | fid :: _ => do
      let f ← readFrame fid
      writeFrame fid (frameSet f s v)

/-- Embeds the `env_loop` of `Environment.set_variable_value`: walk the
frame chain youngest to oldest, mutate the first frame whose bindings
contain the symbol, raise `Unbound variable` when the chain is
exhausted. -/
def setVarLoop (frames : Env) (s : String) (val : Value) : M Unit :=
  match frames with
  | [] => raiseM (.scheme ("Unbound variable: " ++ s))
  | fid :: rest => do
      let f ← readFrame fid
      if frameContains f s then writeFrame fid (frameSet f s val)
      else setVarLoop rest s val

/-- Embeds `Environment.set_variable_value`, taking the (syntactic)
variable as a value.  A non-string variable never equals a dict key, so
the walk always falls off the chain and reports it unbound (with
Python's `str` rendering in the message). -/
def setVariableValue (env : Env) (var : Value) (val : Value) : M Unit :=
  match var with
  | .sym s => setVarLoop env s val
  | v => raiseM (.scheme ("Unbound variable: " ++ pyStr v))

/-- Embeds the `env_loop` of `Environment.lookup_variable_value`. -/
def lookupVariableValue (env : Env) (s : String) : M Value :=
  match env with
  | [] => raiseM (.scheme ("Unbound variable: " ++ s))
  | fid :: rest => do
      let f ← readFrame fid
      match frameLookup f s with
      | some v => pure v
      | none => lookupVariableValue rest s

/-- Embeds `Pair.__len__` (and `len(nil) = 0`): the length of a proper
list; an improper tail is the source's `TypeError`.  Any other value has
no `__len__` (also a `TypeError`). -/
def schemeLenE : Value → Except Err Nat
  | .nil => .ok 0
  | .pair _ r =>
      match r with
      | .pair a b => (schemeLenE (.pair a b)).map (· + 1)
      | .nil => .ok 1
      | _ => .error (.hostTypeError "length attempted on improper list")
  | _ => .error (.hostTypeError "object has no len()")

/-- Embeds `Environment.make_frame`: bind parameter symbols to argument
values in order.  Callers have already validated the parameters (all
distinct symbols) and the arity, so the fall-through cases are
unreachable. -/
def makeFrame : Value → Value → Frame
  | .pair (.sym s) vr, .pair v wr => (s, v) :: makeFrame vr wr
  | _, _ => []

/-- Embeds `Environment.extend_environment`: compare the lengths of the
parameter and argument lists (raising the source's misspelled arity
errors), allocate the call frame, and prepend it to the chain.  (The
temporary frame of `Environment.__init__` that the source immediately
discards is not allocated.) -/
def extendEnvironment (env : Env) (vars vals : Value) : M Env := do
  let lv ← liftE (schemeLenE vars)
  let lw ← liftE (schemeLenE vals)
  if lv = lw then do
    let fid ← allocFrame (makeFrame vars vals)
    pure (fid :: env)
  else if lv < lw then raiseM (.scheme "Too many arguemtns supplied")
  else raiseM (.scheme "Too few arguemtns supplied")

/-! ## Validation utilities (`utils.py`, `primitive_procs.validate_type`) -/

/-- Embeds `utils.validate_form` (`max = none` is the default infinite
bound). -/
def validateForm (expr : Value) (mn : Nat) (mx : Option Nat) :
    Except Err Unit :=
  if !isSchemeList expr then
    .error (.scheme ("badly formed expression: " ++ reprStr expr))
  else
    match schemeLenE expr with
    | .ok l =>
        if l < mn then .error (.scheme "too few operands in form")
        else
          match mx with
          | some m =>
              if m < l then .error (.scheme "too many operands in form")
              else .ok ()
          | none => .ok ()
    | .error e => .error e

def validateFormM (expr : Value) (mn : Nat) (mx : Option Nat) : M Unit :=
  liftE (validateForm expr mn mx)

/-- Embeds the loop of `utils.validate_parameters` with its accumulated
`symbols` set. -/
def validateParamsAux : Value → List String → Except Err Unit
  | .pair p rest, seen =>
      match p with
      | .sym s =>
          if s ∈ seen then .error (.scheme ("duplicate symbol: " ++ s))
          else validateParamsAux rest (s :: seen)
      | v => .error (.scheme ("non-symbol: " ++ pyStr v))
  | _, _ => .ok ()

/-- Embeds `utils.validate_parameters` (the `while isinstance(parameters,
Pair)` loop stops silently at any non-Pair tail). -/
def validateParameters (ps : Value) : Except Err Unit :=
  validateParamsAux ps []

/-- Embeds `primitive_procs.validate_type`. -/
def validateType (val : Value) (pred : Value → Bool) (k : Nat)
    (name : String) : Except Err Unit :=
  if pred val then .ok ()
  else
    .error (.scheme ("argument " ++ toString k ++ " of " ++ name ++
      " has wrong type (" ++ typeName val ++ ")"))

/-- Embeds `utils.validate_procedure`. -/
def validateProcedure (v : Value) : Except Err Unit :=
  if isSchemeProcedure v then .ok ()
  else
    .error (.scheme ((typeName v).toLower ++ " is not callable: " ++
      reprStr v))

/-! ## Arithmetic primitives (`primitive_procs.py` §"Arithmetic
Operations" and §"Boolean Operations / On Numbers") -/

/-- Embeds `_check_nums`: raise on the first operand (0-indexed) that is
not a Scheme number. -/
def checkNumsAux : Nat → List Value → Except Err Unit
  | _, [] => .ok ()
  | i, v :: rest =>
      if isSchemeNumber v then checkNumsAux (i + 1) rest
      else
        .error (.scheme ("operand " ++ toString i ++ " (" ++ pyStr v ++
          ") is not a number"))

def checkNums (vals : List Value) : Except Err Unit := checkNumsAux 0 vals

/-- Embeds `_ensure_int`: `int(x) == x` converts an integral float to an
int; ints are unchanged.  (Non-numbers never reach this in the source.) -/
def ensureInt : Value → Value
  | .real q => if q.den = 1 then .int q.num else .real q
  | v => v

/-- Python `operator.add` on checked numeric operands: int+int stays
int, otherwise the result is a float. -/
def pyAdd : Value → Value → Value
  | .int m, .int n => .int (m + n)
  | a, b => .real (qAdd (toQ a) (toQ b))

def pySub : Value → Value → Value
  | .int m, .int n => .int (m - n)
  | a, b => .real (qSub (toQ a) (toQ b))

def pyMul : Value → Value → Value
  | .int m, .int n => .int (m * n)
  | a, b => .real (qMul (toQ a) (toQ b))

def pyNeg : Value → Value
  | .int n => .int (-n)
  | .real q => .real (Rat.neg q)
  | v => v

/-- Python `operator.truediv`: the result is always a float; a zero
divisor raises `ZeroDivisionError`. -/
def pyTrueDiv (a b : Value) : Except Err Value :=
  if toQ b = 0 then .error .hostZeroDiv
  else .ok (.real (qDiv (toQ a) (toQ b)))

/-- Embeds `_arith` for an infallible operator: check, fold, normalize. -/
def schemeArith (fn : Value → Value → Value) (init : Value)
    (vals : List Value) : Except Err Value := do
  checkNums vals
  pure (ensureInt (vals.foldl fn init))

def foldE (fn : Value → Value → Except Err Value) :
    Value → List Value → Except Err Value
  | s, [] => .ok s
  | s, v :: rest => do
      let s' ← fn s v
      foldE fn s' rest

/-- Embeds `_arith` for a fallible operator (`truediv`). -/
def schemeArithE (fn : Value → Value → Except Err Value) (init : Value)
    (vals : List Value) : Except Err Value := do
  checkNums vals
  let r ← foldE fn init vals
  pure (ensureInt r)

/-- Embeds `scheme_add` (`+`). -/
def schemeAdd (vals : List Value) : Except Err Value :=
  schemeArith pyAdd (.int 0) vals

/-- Embeds `scheme_sub` (`-`): checks `val0` and `vals` up front, negates
on a single operand. -/
def schemeSub (val0 : Value) (vals : List Value) : Except Err Value := do
  checkNums (val0 :: vals)
  if vals.isEmpty then pure (ensureInt (pyNeg val0))
  else schemeArith pySub val0 vals

/-- Embeds `scheme_mul` (`*`). -/
def schemeMul (vals : List Value) : Except Err Value :=
  schemeArith pyMul (.int 1) vals

/-- Models the `try`/`except ZeroDivisionError as err: raise
SchemeError(err)` pattern shared by `scheme_div`, `scheme_modulo`,
`scheme_quo` and `scheme_remainder`.  (The host's exact message text
varies by operand type; it is condensed to `division by zero` here.) -/
def zeroDivToScheme (x : Except Err Value) : Except Err Value :=
  match x with
  | .error .hostZeroDiv => .error (.scheme "division by zero")
  | r => r

/-- Embeds `scheme_div` (`/`): the `try`/`except ZeroDivisionError`
around the division turns the host error into a `SchemeError`. -/
def schemeDiv (val0 : Value) (vals : List Value) : Except Err Value := do
  checkNums (val0 :: vals)
  zeroDivToScheme
    (if vals.isEmpty then (pyTrueDiv (.int 1) val0).map ensureInt
     else schemeArithE pyTrueDiv val0 vals)

/-- Embeds `scheme_abs`: plain Python `abs`, with no `_check_nums` and no
`_ensure_int`.  Python's `abs(True) = 1` and `abs(False) = 0` (bool is an
int subtype); non-numeric arguments raise a host `TypeError`. -/
def schemeAbs : Value → Except Err Value
  | .int n => .ok (.int (if n < 0 then -n else n))
  | .real q => .ok (.real (qAbs q))
  | .bool b => .ok (.int (if b then 1 else 0))
  | v => .error (.hostTypeError ("bad operand type for abs(): " ++
      typeName v))

/-- Python's integer power (structural; `ipow` above). -/
def pyPow : Value → Value → Except Err Value
  | .int a, .int b =>
      if 0 ≤ b then .ok (.int (ipow a b.toNat))
      else if a = 0 then .error .hostZeroDiv
      else .ok (.real (qpowInt (Rat.ofInt a) b))
  | a, b =>
      let qa := toQ a
      match b with
      | .int n =>
          if qa = 0 ∧ n < 0 then .error .hostZeroDiv
          else .ok (.real (qpowInt qa n))
      | .real e =>
          if e.den = 1 then
            if qa = 0 ∧ e.num < 0 then .error .hostZeroDiv
            else .ok (.real (qpowInt qa e.num))
          else .error (.nonRationalFloat "math.pow with non-integral exponent")
      | _ => .error (.hostTypeError "pow")

/-- Embeds `scheme_expt` (`expt`): `_check_nums` then plain `pow`, with
no `_ensure_int` and no `ZeroDivisionError` handler. -/
def schemeExpt (val0 val1 : Value) : Except Err Value := do
  checkNums [val0, val1]
  pyPow val0 val1

/-- Python `%` (floored modulus, sign of the divisor) on checked numeric
operands. -/
def pyMod : Value → Value → Except Err Value
  | .int a, .int b =>
      if b = 0 then .error .hostZeroDiv
      else .ok (.int (a - b * Int.fdiv a b))
  | a, b =>
      let qa := toQ a
      let qb := toQ b
      if qb = 0 then .error .hostZeroDiv
      else .ok (.real (qSub qa (qMul qb (Rat.ofInt (qDiv qa qb).floor))))

/-- Embeds `scheme_modulo`: `_check_nums`, `%`, `ZeroDivisionError`
wrapped into a `SchemeError` (whose message is the host's text; the text
itself is condensed here). -/
def schemeModulo (val0 val1 : Value) : Except Err Value := do
  checkNums [val0, val1]
  zeroDivToScheme (pyMod val0 val1)

/-- Python `//` (floor division). -/
def pyFloorDiv : Value → Value → Except Err Value
  | .int a, .int b =>
      if b = 0 then .error .hostZeroDiv else .ok (.int (Int.fdiv a b))
  | a, b =>
      let qa := toQ a
      let qb := toQ b
      if qb = 0 then .error .hostZeroDiv
      else .ok (.real (Rat.ofInt (qDiv qa qb).floor))

/-- Whether a checked numeric operand is negative (Python `val < 0`). -/
def numNeg (v : Value) : Bool := Rat.blt (toQ v) 0

/-- Embeds `scheme_quo` (`quotient`): truncating division built from
floor division with the source's sign trick
`-(-val0 // val1) if (val0 < 0) ^ (val1 < 0) else val0 // val1`. -/
def schemeQuotient (val0 val1 : Value) : Except Err Value := do
  checkNums [val0, val1]
  zeroDivToScheme
    (if numNeg val0 != numNeg val1 then
      (pyFloorDiv (pyNeg val0) val1).map pyNeg
     else pyFloorDiv val0 val1)

/-- Embeds `scheme_remainder`: `%` then the sign-correcting loop
`while result < 0 and val0 > 0 or result > 0 and val0 < 0: result -=
val1`.  Since `%` leaves `|result| < |val1|`, the loop body runs at most
once, and is rendered as a single conditional subtraction. -/
def schemeRemainder (val0 val1 : Value) : Except Err Value := do
  checkNums [val0, val1]
  let r ← zeroDivToScheme (pyMod val0 val1)
  if (numNeg r && Rat.blt 0 (toQ val0)) ||
      (Rat.blt 0 (toQ r) && numNeg val0) then
    pure (pySub r val1)
  else pure r

/-- Embeds `_numcomp`: check both operands, compare numerically, return
a Scheme boolean.  Instantiated at `= < > <= >=`. -/
def schemeNumComp (cmp : ℚ → ℚ → Bool) (x y : Value) :
    Except Err Value := do
  checkNums [x, y]
  pure (.bool (cmp (toQ x) (toQ y)))

def qEq (a b : ℚ) : Bool := a == b
def qLt (a b : ℚ) : Bool := Rat.blt a b
def qGt (a b : ℚ) : Bool := Rat.blt b a
def qLe (a b : ℚ) : Bool := !Rat.blt b a
def qGe (a b : ℚ) : Bool := !Rat.blt a b

/-! ## The evaluator (`eval_apply.py`)

After `scheme_eval = optimize_tail_calls(scheme_eval)` at module level,
every internal reference to `scheme_eval` resolves to the optimized
(trampolining) evaluator.  The handlers below therefore take that
evaluator as the explicit parameter `ev`; the knot is tied by
`trampoline` / `schemeEval` at the end, where the embedding's fuel lives
(the surrogate for the host stack / nontermination). -/

/-- The type of `scheme_eval(expr, env, tail)`. -/
abbrev EvalFn : Type := Value → Env → Bool → M Value

/-- Embeds `eval_apply.make_lambda`. -/
def makeLambda (parameters body : Value) : Value :=
  .pair (.sym "lambda") (.pair parameters body)

/-- Embeds `sequence_to_expr` inside `eval_cond` (`make_begin` is the
`cons` with the `begin` symbol). -/
def sequenceToExpr : Value → Value
  | .nil => .nil
  | .pair e .nil => e
  | seq => .pair (.sym "begin") seq

/-- Embeds `make_if` inside `eval_cond`. -/
def makeIf (predicate consequent alternative : Value) : Value :=
  .pair (.sym "if") (.pair predicate (.pair consequent
    (.pair alternative .nil)))

/-- Embeds `cond_to_if` inside `eval_cond`: rewrite a `cond` clause list
into nested `if` expressions.  A clause with no actions contributes the
Python `None` (here `Value.unspec`) as the if-consequent; exhausted
clauses contribute `None` as the innermost alternative.  The source
message for a misplaced else clause reads "ELSE clause isn't last"; the
apostrophe is dropped here. -/
def condToIf : Value → Except Err Value
  | .nil => .ok .unspec
  | .pair first rest => do
      validateForm first 1 none
      match first with
      | .pair pred actions =>
          if pred = .sym "else" then
            if rest = .nil then .ok (sequenceToExpr actions)
            else
              .error (.scheme ("ELSE clause is not last: " ++
                reprStr (.pair first rest)))
          else do
            let consequent :=
              if actions = .nil then Value.unspec
              else sequenceToExpr actions
            let alt ← condToIf rest
            .ok (makeIf pred consequent alt)
      | _ => .error (.attrError "unreachable: clause validated non-empty")
  | _ => .error (.attrError "object has no attribute first")

/-- Embeds `eval_if` (`tail` defaults to true at the dispatch site).  The
predicate is evaluated first (not in tail position); a truthy predicate
with the `None` consequent produced by `cond` desugaring returns the
predicate value itself; with no alternative a falsy predicate returns
`False`. -/
def evalIfG (ev : EvalFn) (expr : Value) (env : Env) (tail : Bool) :
    M Value := do
  validateFormM expr 2 (some 3)
  match expr with
  | .pair p rest => do
      let pv ← ev p env false
      if isSchemeTrue pv then
        match rest with
        | .pair c _ => if c = .unspec then pure pv else ev c env tail
        | _ => raiseM (.attrError "unreachable: validated")
      else
        match rest with
        | .pair _ (.pair a .nil) => ev a env tail
        | _ => pure (.bool false)
  | _ => raiseM (.attrError "unreachable: validated")

/-- Embeds `eval_cond`: desugar through `cond_to_if` and evaluate the
resulting `if` expression (or the `None` produced by an empty clause
list) with the same tail flag. -/
def evalCondG (ev : EvalFn) (expr : Value) (env : Env) (tail : Bool) :
    M Value := do
  let e ← liftE (condToIf expr)
  ev e env tail

/-- Embeds `eval_and`: empty operand list is `True`; the last operand is
evaluated with the tail flag; an earlier falsy operand short-circuits to
`False`; the recursion re-enters with the default `tail=True`. -/
def evalAndG (ev : EvalFn) (env : Env) (tail : Bool) : Value → M Value
  | .nil => pure (.bool true)
  | .pair e r =>
      match r with
      | .nil => ev e env tail
      | _ => do
          let v ← ev e env false
          if isSchemeFalse v then pure (.bool false)
          else evalAndG ev env true r
  | _ => raiseM (.attrError "object has no attribute rest")

/-- Embeds `eval_or`: empty operand list is `False`; the last operand is
evaluated with the tail flag; an earlier truthy operand short-circuits
to its own value. -/
def evalOrG (ev : EvalFn) (env : Env) (tail : Bool) : Value → M Value
  | .nil => pure (.bool false)
  | .pair e r =>
      match r with
      | .nil => ev e env tail
      | _ => do
          let v ← ev e env false
          if isSchemeTrue v then pure v
          else evalOrG ev env true r
  | _ => raiseM (.attrError "object has no attribute rest")

/-- Embeds `eval_sequence`: a non-Pair returns Python `None`; the last
expression is evaluated with the tail flag, the earlier ones without. -/
def evalSequenceG (ev : EvalFn) (env : Env) (tail : Bool) :
    Value → M Value
  | .pair e r =>
      match r with
      | .nil => ev e env tail
      | _ => do
          let _ ← ev e env false
          evalSequenceG ev env tail r
  | _ => pure .unspec

/-- Embeds `eval_begin`. -/
def evalBeginG (ev : EvalFn) (expr : Value) (env : Env) (tail : Bool) :
    M Value := do
  validateFormM expr 1 none
  evalSequenceG ev env tail expr

/-- Embeds `bindings_items` inside `make_let_frame`: validate each
binding, evaluate its initializer in the outer environment (left to
right), and collect parallel symbol/value lists. -/
def bindingsItemsG (ev : EvalFn) (env : Env) : Value → M (Value × Value)
  | .nil => pure (.nil, .nil)
  | .pair binding rest => do
      validateFormM binding 2 (some 2)
      match binding with
      | .pair var (.pair vexpr _) => do
          let val ← ev vexpr env false
          let (vars, vals) ← bindingsItemsG ev env rest
          pure (.pair var vars, .pair val vals)
      | _ => raiseM (.attrError "unreachable: binding validated")
  | _ => raiseM (.attrError "object has no attribute first")

/-- Embeds `make_let_frame`. -/
def makeLetFrameG (ev : EvalFn) (env : Env) (bindings : Value) :
    M Env := do
  if !isSchemeList bindings then
    raiseM (.scheme "bad bindings list in let form")
  else do
    let (vars, vals) ← bindingsItemsG ev env bindings
    liftE (validateParameters vars)
    extendEnvironment env vars vals

/-- Embeds `eval_let`. -/
def evalLetG (ev : EvalFn) (expr : Value) (env : Env) (tail : Bool) :
    M Value := do
  validateFormM expr 2 none
  match expr with
  | .pair bindings body => do
      let letEnv ← makeLetFrameG ev env bindings
      evalSequenceG ev letEnv tail body
  | _ => raiseM (.attrError "unreachable: validated")

/-- Embeds `eval_assignment` (`set!`): evaluate the value expression,
then mutate through `set_variable_value`; the handler itself returns
Python `None` (the Unspecified value).  A malformed shape is the
source's attribute error on `nil`. -/
def evalAssignmentG (ev : EvalFn) (expr : Value) (env : Env) :
    M Value :=
  match expr with
  | .pair var rest =>
      match rest with
      | .pair vexpr _ => do
          let v ← ev vexpr env false
          setVariableValue env var v
          pure .unspec
      | _ => raiseM (.attrError "object has no attribute first")
  | _ => raiseM (.attrError "object has no attribute first")

/-- Embeds `definition_varaible` (sic) inside `eval_definition`. -/
def definitionVariable : Value → Except Err Value
  | .pair target rest =>
      match target with
      | .sym s => do
          validateForm (.pair target rest) 2 (some 2)
          pure (.sym s)
      | .pair (.sym f) _ => .ok (.sym f)
      | .pair bad _ => .error (.scheme ("non-symbol: " ++ pyStr bad))
      | _ => .error (.scheme ("non-symbol: " ++ pyStr target))
  | _ => .error (.attrError "object has no attribute first")

/-- Embeds `definition_value` inside `eval_definition`. -/
def definitionValue : Value → Except Err Value
  | .pair target rest =>
      match target with
      | .sym _ =>
          match rest with
          | .pair v _ => .ok v
          | _ => .error (.attrError "object has no attribute first")
      | .pair (.sym _) params => .ok (makeLambda params rest)
      | .pair bad _ => .error (.scheme ("non-symbol: " ++ pyStr bad))
      | _ => .error (.scheme ("non-symbol: " ++ pyStr target))
  | _ => .error (.attrError "object has no attribute first")

/-- Binds the (already validated, hence symbol) define target in the
youngest frame. -/
def defineVariableV (env : Env) (var : Value) (v : Value) : M Unit :=
  match var with
  | .sym s => defineVariable env s v
  | _ => raiseM (.hostTypeError "unreachable: define target is a symbol")

/-- Embeds `eval_definition` (`define`): extract the target, fully
evaluate the value expression, only then bind in the youngest frame, and
return the defined symbol. -/
def evalDefinitionG (ev : EvalFn) (expr : Value) (env : Env) :
    M Value := do
  validateFormM expr 2 none
  let var ← liftE (definitionVariable expr)
  let valE ← liftE (definitionValue expr)
  let v ← ev valE env false
  defineVariableV env var v
  pure var

/-- Embeds `eval_lambda` (including the `validate_type` checks of the
`LambdaProcedure` constructor). -/
def evalLambdaG (expr : Value) (env : Env) : M Value := do
  validateFormM expr 2 none
  match expr with
  | .pair params body => do
      liftE (validateParameters params)
      liftE (validateType params isSchemeList 0 "LambdaProcedure")
      liftE (validateType body isSchemeList 1 "LambdaProcedure")
      pure (.lambdaProc params body env)
  | _ => raiseM (.attrError "unreachable: validated")

/-- Embeds `eval_quote`. -/
def evalQuoteG (expr : Value) : M Value := do
  validateFormM expr 1 (some 1)
  match expr with
  | .pair e _ => pure e
  | _ => raiseM (.attrError "unreachable: validated")

/-- Embeds `quasiquote_item` inside `eval_quasiquote` together with the
`Pair.map` traversal it uses.  `mode = true` is `quasiquote_item`
itself; `mode = false` is the `val.map(lambda elem: quasiquote_item(elem,
env, depth))` walk along a pair chain, which checks each `rest` before
recursing and raises the source's `TypeError` on an improper tail.  In
`quasiquote_item`: a non-Pair is returned unchanged; `unquote`
decrements the depth and evaluates the single argument when the depth
reaches zero; `quasiquote` increments the depth; in every other case the
walk maps itself over the elements (including the leading `unquote` /
`quasiquote` symbol, which is a non-Pair and survives unchanged). -/
def qqAux (ev : EvalFn) (env : Env) : Bool → Int → Value → M Value
  | true, depth, .pair a r =>
      if a = .sym "unquote" ∧ depth - 1 = 0 then do
        validateFormM r 1 (some 1)
        match r with
        | .pair e _ => ev e env false
        | _ => raiseM (.attrError "unreachable: validated")
      else
        let d :=
          if a = .sym "unquote" then depth - 1
          else if a = .sym "quasiquote" then depth + 1
          else depth
        do
          let ma ← qqAux ev env true d a
          if r = .nil || isSchemePair r then do
            let mr ← qqAux ev env false d r
            pure (.pair ma mr)
          else raiseM (.hostTypeError "ill-formed list (cdr is a promise)")
  | true, _, v => pure v
  | false, depth, .pair b r => do
      let mb ← qqAux ev env true depth b
      if r = .nil || isSchemePair r then do
        let mr ← qqAux ev env false depth r
        pure (.pair mb mr)
      else raiseM (.hostTypeError "ill-formed list (cdr is a promise)")
  | false, _, .nil => pure .nil
  | false, _, _ =>
      raiseM (.hostTypeError "ill-formed list (cdr is a promise)")

/-- The entry point of the walker, `quasiquote_item(val, env, depth)`. -/
def quasiquoteItemG (ev : EvalFn) (env : Env) (val : Value)
    (depth : Int) : M Value :=
  qqAux ev env true depth val

/-- Embeds `eval_quasiquote`: validate the form and walk the template at
depth 1. -/
def evalQuasiquoteG (ev : EvalFn) (expr : Value) (env : Env) :
    M Value := do
  validateFormM expr 1 (some 1)
  match expr with
  | .pair t _ => quasiquoteItemG ev env t 1
  | _ => raiseM (.attrError "unreachable: validated")

/-- Embeds `eval_unquote`. -/
def evalUnquoteG : M Value :=
  raiseM (.scheme "unquote outside of quasiquote")

/-- Embeds `eval_dlambda_form`. -/
def evalDlambdaG (expr : Value) : M Value := do
  validateFormM expr 2 none
  match expr with
  | .pair params body => do
      liftE (validateParameters params)
      pure (.dlambdaProc params body)
  | _ => raiseM (.attrError "unreachable: validated")

/-- Embeds `eval_macro_definition` (including the inherited
`LambdaProcedure` constructor checks of `MacroProcedure`). -/
def evalMacDefG (expr : Value) (env : Env) : M Value := do
  validateFormM expr 2 none
  match expr with
  | .pair target body =>
      match target with
      | .pair (.sym f) params => do
          liftE (validateType params isSchemeList 0 "LambdaProcedure")
          liftE (validateType body isSchemeList 1 "LambdaProcedure")
          defineVariable env f (.macProc params body env)
          pure (.sym f)
      | _ => raiseM (.scheme "Invalid use of macro")
  | _ => raiseM (.attrError "unreachable: validated")

/-- Embeds `eval_delay`. -/
def evalDelayG (expr : Value) (env : Env) : M Value := do
  validateFormM expr 1 (some 1)
  match expr with
  | .pair e _ => pure (.promise e env)
  | _ => raiseM (.attrError "unreachable: validated")

/-- Embeds `eval_cons_stream`: the car is evaluated now, the cdr is
wrapped as a promise. -/
def evalConsStreamG (ev : EvalFn) (expr : Value) (env : Env) :
    M Value := do
  validateFormM expr 2 (some 2)
  match expr with
  | .pair a (.pair d _) => do
      let v ← ev a env false
      pure (.pair v (.promise d env))
  | _ => raiseM (.attrError "unreachable: validated")

/-- Embeds the `rest.map(lambda x: scheme_eval(x, env))` operand
evaluation of an application (`Pair.map` checks each tail before
recursing; a non-list operand position is the host attribute error on
`map`). -/
def mapEvalG (ev : EvalFn) (env : Env) : Value → M Value
  | .nil => pure .nil
  | .pair a r => do
      let va ← ev a env false
      if r = .nil || isSchemePair r then do
        let vr ← mapEvalG ev env r
        pure (.pair va vr)
      else raiseM (.hostTypeError "ill-formed list (cdr is a promise)")
  | _ => raiseM (.attrError "object has no attribute map")

/-- Embeds `PrimitiveProcedure.flatten`. -/
def flattenArgs : Value → List Value
  | .pair a r => a :: flattenArgs r
  | _ => []

/-- Dispatch of the modelled primitive procedures on the flattened
argument list.  The catch-all is the host `TypeError` that Python raises
for a call with the wrong number of arguments.  (None of the modelled
primitives is registered with `use_env`, so the caller environment is
unused: `force` evaluates in the promise's own stored environment.) -/
def runPrimG (ev : EvalFn) (_env : Env) (op : PrimOp)
    (args : List Value) : M Value :=
  match op, args with
  | .add, vs => liftE (schemeAdd vs)
  | .sub, v :: vs => liftE (schemeSub v vs)
  | .mul, vs => liftE (schemeMul vs)
  | .div, v :: vs => liftE (schemeDiv v vs)
  | .abs, [v] => liftE (schemeAbs v)
  | .expt, [a, b] => liftE (schemeExpt a b)
  | .modulo, [a, b] => liftE (schemeModulo a b)
  | .quotient, [a, b] => liftE (schemeQuotient a b)
  | .remainder, [a, b] => liftE (schemeRemainder a b)
  | .numEq, [a, b] => liftE (schemeNumComp qEq a b)
  | .lt, [a, b] => liftE (schemeNumComp qLt a b)
  | .gt, [a, b] => liftE (schemeNumComp qGt a b)
  | .le, [a, b] => liftE (schemeNumComp qLe a b)
  | .ge, [a, b] => liftE (schemeNumComp qGe a b)
  | .isNumber, [v] => pure (.bool (isSchemeNumber v))
  | .force, [v] => do
      liftE (validateType v isSchemePromise 0 "stream-force")
      match v with
      | .promise e penv => ev e penv false
      | .tailPromise e penv => ev e penv false
      | _ => raiseM (.hostTypeError "unreachable: validated promise")
  | .car, [v] => do
      liftE (validateType v isSchemePair 0 "car")
      match v with
      | .pair a _ => pure a
      | _ => raiseM (.hostTypeError "unreachable: validated pair")
  | .cdr, [v] => do
      liftE (validateType v isSchemePair 0 "cdr")
      match v with
      | .pair _ r => pure r
      | _ => raiseM (.hostTypeError "unreachable: validated pair")
  | .cons, [a, b] => pure (.pair a b)
  | .list, vs => pure (vs.foldr .pair .nil)
  | _, _ => raiseM (.hostTypeError "incorrect number of arguments")

/-- Embeds `PrimitiveProcedure.apply`: check the argument list shape,
flatten it, run the host function, and convert any escaping host
`TypeError` into the source's arity `SchemeError`. -/
def applyPrimProcG (ev : EvalFn) (env : Env) (op : PrimOp)
    (name : String) (args : Value) : M Value :=
  if !isSchemeList args then
    raiseM (.scheme ("Arguments are not in a list: " ++ pyStr args))
  else fun st =>
    match runPrimG ev env op (flattenArgs args) st with
    | (.error (.hostTypeError _), st') =>
        (.error (.scheme ("Incorrect number of arguments: #[" ++
          name ++ "]")), st')
    | r => r

/-- Embeds `scheme_apply`: primitives apply directly; compound
procedures build their call frame (`make_call_frame`: the captured
environment for lambdas and macros, the caller environment for
dlambdas) and evaluate their body as a sequence with `tail=True`. -/
def schemeApplyG (ev : EvalFn) (procV args : Value) (env : Env) :
    M Value := do
  liftE (validateProcedure procV)
  match procV with
  | .primProc op name _ => applyPrimProcG ev env op name args
  | .lambdaProc params body penv => do
      let newEnv ← extendEnvironment penv params args
      evalSequenceG ev newEnv true body
  | .macProc params body penv => do
      let newEnv ← extendEnvironment penv params args
      evalSequenceG ev newEnv true body
  | .dlambdaProc params body => do
      let newEnv ← extendEnvironment env params args
      evalSequenceG ev newEnv true body
  | v => raiseM (.scheme ("Unknown procedure type: " ++ reprStr v))

/-- Embeds `complete_apply`: apply, then force a `TailPromise` result so
no thunk escapes to the caller. -/
def completeApplyG (ev : EvalFn) (procV args : Value) (env : Env) :
    M Value := do
  let val ← schemeApplyG ev procV args env
  match val with
  | .tailPromise e2 env2 => ev e2 env2 false
  | v => pure v

/-- The keys of the `SPECIAL_FORMS` dispatch dictionary. -/
def specialFormNames : List String :=
  ["if", "cond", "and", "or", "begin", "let", "set!", "define",
   "lambda", "quote", "unquote", "quasiquote", "dlambda",
   "define-macro", "delay", "cons-stream"]

/-- Embeds the `SPECIAL_FORMS[first](rest, env)` dispatch; the handlers
with a tail parameter default it to true. -/
def dispatchSF (ev : EvalFn) (s : String) (rest : Value) (env : Env) :
    M Value :=
  if s = "if" then evalIfG ev rest env true
  else if s = "cond" then evalCondG ev rest env true
  else if s = "and" then evalAndG ev env true rest
  else if s = "or" then evalOrG ev env true rest
  else if s = "begin" then evalBeginG ev rest env true
  else if s = "let" then evalLetG ev rest env true
  else if s = "set!" then evalAssignmentG ev rest env
  else if s = "define" then evalDefinitionG ev rest env
  else if s = "lambda" then evalLambdaG rest env
  else if s = "quote" then evalQuoteG rest
  else if s = "unquote" then evalUnquoteG
  else if s = "quasiquote" then evalQuasiquoteG ev rest env
  else if s = "dlambda" then evalDlambdaG rest
  else if s = "define-macro" then evalMacDefG rest env
  else if s = "delay" then evalDelayG rest env
  else if s = "cons-stream" then evalConsStreamG ev rest env
  else raiseM (.scheme "unreachable: unknown special form")

/-- Embeds the original (pre-optimization) `scheme_eval` dispatch:
literals evaluate to themselves; symbols are looked up; other non-Pairs
are unknown expression types; a Pair headed by a special-form symbol
dispatches to its handler; otherwise the operator is evaluated, macros
splice-evaluate through `complete_apply`, and ordinary applications
evaluate their operands left to right and apply. -/
def rawEvalG (ev : EvalFn) (expr : Value) (env : Env) : M Value :=
  if isSelfEvaluating expr then pure expr
  else
    match expr with
    | .sym s => lookupVariableValue env s
    | .pair first rest =>
        (match first with
        | .sym s =>
            if specialFormNames.contains s then dispatchSF ev s rest env
            else do
              let op ← ev first env false
              match op with
              | .macProc p b menv => do
                  let expanded ←
                    completeApplyG ev (.macProc p b menv) rest env
                  ev expanded env false
              | _ => do
                  let args ← mapEvalG ev env rest
                  schemeApplyG ev op args env
        | _ => do
            let op ← ev first env false
            match op with
            | .macProc p b menv => do
                let expanded ←
                  completeApplyG ev (.macProc p b menv) rest env
                ev expanded env false
            | _ => do
                let args ← mapEvalG ev env rest
                schemeApplyG ev op args env)
    | _ => raiseM (.scheme ("Unknown expression type: " ++ reprStr expr))

/-- The guard of `optimized_eval`: defer exactly when the tail flag is
set and the expression is neither a bare variable nor self-evaluating. -/
def tailCheck (expr : Value) (tail : Bool) : Bool :=
  tail && !isSchemeVariable expr && !isSelfEvaluating expr

/-- The `while isinstance(result, TailPromise)` loop of
`optimized_eval`: repeatedly re-enter the original evaluator on the
captured (expression, environment) pair until a non-TailPromise is
produced.  The inner evaluator handed to `rawEvalG` is the optimized
evaluator itself (Python's late-bound module-level `scheme_eval`),
here at one less fuel. -/
def trampoline : Nat → Value → Env → M Value
  | 0, _, _ => raiseM .fuel
  | f+1, expr, env => fun st =>
      match rawEvalG (fun e2 env2 t2 =>
          if tailCheck e2 t2 then pure (.tailPromise e2 env2)
          else trampoline f e2 env2) expr env st with
      | (.ok (.tailPromise e2 env2), st2) => trampoline f e2 env2 st2
      | r => r

/-- Embeds `optimized_eval` (the module-level `scheme_eval` after
`optimize_tail_calls` is applied): with the tail flag set on a
non-atomic, non-variable expression, immediately return a `TailPromise`
capturing the (expression, environment) pair; otherwise run the
trampoline loop. -/
def schemeEval (fuel : Nat) (expr : Value) (env : Env) (tail : Bool) :
    M Value :=
  if tailCheck expr tail then pure (.tailPromise expr env)
  else trampoline fuel expr env

end TinySCM

namespace TinySCM

/-! ## The parser (`scm_parser.py`)

Tokens are the values the tokenizer produces: the delimiter strings,
booleans, numbers, strings, symbols, and the literal `"nil"`.  The
parser state is the token buffer `current_line` plus the remaining
line stream; the stream raises `EOFError` when exhausted (as
`read_input` does).  The dead `tok is None` checks of the source are
not modelled (the tokenizer never yields `None`). -/

inductive Token where
  | lparen | rparen | quoteTok | backtick | dot | comma | commaAt
  | boolTok (b : Bool) | intTok (n : Int) | realTok (q : ℚ)
  | strTok (s : String) | symTok (s : String) | nilTok
deriving DecidableEq

/-- Membership in `Parser.DELIMITERS` (the bracket tokens are already
normalized to parentheses by the tokenizer). -/
def isDelimiterTok : Token → Bool
  | .lparen => true
  | .rparen => true
  | .quoteTok => true
  | .backtick => true
  | .dot => true
  | .comma => true
  | .commaAt => true
  | _ => false

/-- Python `str` of a token, for the `unexpected token` message. -/
def pyTokStr : Token → String
  | .lparen => "("
  | .rparen => ")"
  | .quoteTok => "\x27"
  | .backtick => "`"
  | .dot => "."
  | .comma => ","
  | .commaAt => ",@"
  | .boolTok true => "True"
  | .boolTok false => "False"
  | .intTok n => toString n
  | .realTok q => ratStr q
  | .strTok s => "\"" ++ s ++ "\""
  | .symTok s => s
  | .nilTok => "nil"

/-- A non-delimiter token is returned by `expr` as the expression
itself. -/
def tokenValue : Token → Value
  | .boolTok b => .bool b
  | .intTok n => .int n
  | .realTok q => .real q
  | .strTok s => .str s
  | .symTok s => .sym s
  | .nilTok => .nil
  | _ => .unspec

/-- A token that `expr` accepts as a complete atomic expression. -/
def isAtomTok (t : Token) : Bool := !isDelimiterTok t

/-- The parser state: `current_line` and the rest of the line stream. -/
structure PState where
  currentLine : List Token
  stream : List (List Token)
deriving DecidableEq

/-- Embeds `read_until_not_empty` (with `read_line`): skip empty lines;
an exhausted stream raises `EOFError` (from `read_input`), which
`read_line` does not catch. -/
def skipEmptyLines : List (List Token) → Except Err PState
  | [] => .error .eofError
  | l :: rest =>
      match l with
      | [] => skipEmptyLines rest
      | t :: ts => .ok ⟨t :: ts, rest⟩

def readUntilNotEmpty (ps : PState) : Except Err PState :=
  match ps.currentLine with
  | t :: ts => .ok ⟨t :: ts, ps.stream⟩
  | [] => skipEmptyLines ps.stream

/-- Embeds the mutually recursive `Parser.expr` (`mode = true`) and
`Parser.rest_list` (`mode = false`), fuelled.

`expr`: skip to a non-empty line, pop one token; `nil` parses to the
empty list, `(` parses the rest of a list, a quote wraps the next
expression in `(quote _)`, any other delimiter is an unexpected-token
syntax error, and a non-delimiter token is the expression itself.

`rest_list`: peek at the next token; `)` closes the list; `.` parses
exactly one expression which becomes the result (the improper tail),
then demands `)` and otherwise raises `expected one element after .`;
any other token parses as the first element followed by the rest of the
list.  The whole body is wrapped in the source’s
`except EOFError: raise SyntaxError("unexpected end of file")`. -/
def parseAux : Nat → Bool → PState → Except Err (Value × PState)
  | 0, _, _ => .error .fuel
  | f + 1, true, ps => do
      let ps1 ← readUntilNotEmpty ps
      match ps1.currentLine with
      | [] => .error .eofError
      | tok :: rest =>
          let ps2 : PState := ⟨rest, ps1.stream⟩
          match tok with
          | .nilTok => .ok (.nil, ps2)
          | .lparen => parseAux f false ps2
          | .quoteTok => do
              let (e, ps3) ← parseAux f true ps2
              .ok (.pair (.sym "quote") (.pair e .nil), ps3)
          | t =>
              if isDelimiterTok t then
                .error (.synErr ("unexpected token: " ++ pyTokStr t))
              else .ok (tokenValue t, ps2)
  | f + 1, false, ps =>
      match (do
        let ps1 ← readUntilNotEmpty ps
        match ps1.currentLine with
        | [] => .error .eofError
        | tok :: rest =>
            match tok with
            | .rparen => .ok (Value.nil, (⟨rest, ps1.stream⟩ : PState))
            | .dot => do
                let (e, ps2) ← parseAux f true ⟨rest, ps1.stream⟩
                let ps3 ← readUntilNotEmpty ps2
                match ps3.currentLine with
                | [] => .error .eofError
                | tok2 :: rest2 =>
                    if tok2 = .rparen then
                      .ok (e, (⟨rest2, ps3.stream⟩ : PState))
                    else .error (.synErr "expected one element after .")
            | _ => do
                let (first, ps2) ← parseAux f true ps1
                let (restV, ps3) ← parseAux f false ps2
                .ok (Value.pair first restV, ps3) :
        Except Err (Value × PState)) with
      | .error .eofError => .error (.synErr "unexpected end of file")
      | r => r

/-- Embeds `Parser.expr`. -/
def parseExpr (fuel : Nat) (ps : PState) : Except Err (Value × PState) :=
  parseAux fuel true ps

/-- Embeds `Parser.rest_list`. -/
def restList (fuel : Nat) (ps : PState) : Except Err (Value × PState) :=
  parseAux fuel false ps

end TinySCM

namespace TinySCM

/-! ## Fixtures for concrete statements

A small initial environment in the style of `tiny_scm.setup_environment`,
restricted to the primitives the claims mention. -/

/-- Builds a proper Scheme list value. -/
def listV (l : List Value) : Value := l.foldr .pair .nil

/-- A one-frame global store binding the primitives used below. -/
def store0 : Store :=
  [[("undefined", .unspec),
    ("+", .primProc .add "+" false),
    ("force", .primProc .force "force" false)]]

/-- The environment whose only frame is the global frame of `store0`. -/
def env0 : Env := [0]

/-- The template of spec scenario 4: `(a (quasiquote (b (unquote (+ 1
2)))))`, the operand of the outer quasiquote. -/
def qqTemplate : Value :=
  listV [.sym "a", listV [.sym "quasiquote",
    listV [.sym "b", listV [.sym "unquote",
      listV [.sym "+", .int 1, .int 2]]]]]

/-- Statement helper: an arithmetic result is normalized when it is not
an integer-valued Real (spec: integer-valued reals must normalize to
Integer on output). -/
def isNormalizedNum (v : Value) : Prop :=
  ∀ q : ℚ, v = .real q → q.den ≠ 1

end TinySCM

namespace TinySCM

/-! ## Helper lemmas -/

theorem qAdd_eq (a b : ℚ) : qAdd a b = a + b := by
  conv_rhs => rw [← Rat.num_divInt_den a, ← Rat.num_divInt_den b,
    Rat.divInt_add_divInt _ _ (by exact_mod_cast a.den_nz)
      (by exact_mod_cast b.den_nz)]
  rfl

theorem qSub_eq (a b : ℚ) : qSub a b = a - b := by
  conv_rhs => rw [← Rat.num_divInt_den a, ← Rat.num_divInt_den b,
    Rat.divInt_sub_divInt _ _ (by exact_mod_cast a.den_nz)
      (by exact_mod_cast b.den_nz)]
  rfl

theorem qMul_eq (a b : ℚ) : qMul a b = a * b := by
  conv_rhs => rw [← Rat.num_divInt_den a, ← Rat.num_divInt_den b,
    Rat.divInt_mul_divInt' a.num (a.den : Int) b.num (b.den : Int)]
  rfl

theorem qDiv_eq (a b : ℚ) : qDiv a b = a / b := by
  rw [div_eq_mul_inv, Rat.inv_def']
  conv_rhs => rw [← Rat.num_divInt_den a,
    Rat.divInt_mul_divInt' a.num (a.den : Int) (b.den : Int) b.num]
  rfl

theorem qAbs_eq (a : ℚ) : qAbs a = |a| := by
  have hblt : Rat.blt a 0 = true ↔ a < 0 := Iff.rfl
  rw [qAbs]
  rcases lt_or_le a 0 with h | h
  · rw [if_pos (hblt.mpr h), abs_of_neg h]
    rfl
  · rw [if_neg (fun hc => absurd (hblt.mp hc) (not_lt.mpr h)),
      abs_of_nonneg h]

/-- One unfolding of the trampoline: the evaluator handed to the
original dispatch is `schemeEval` at the decremented fuel. -/
theorem trampoline_succ (f : Nat) (expr : Value) (env : Env)
    (st : Store) :
    trampoline (f + 1) expr env st =
      match rawEvalG (fun e2 env2 t2 => schemeEval f e2 env2 t2)
          expr env st with
      | (.ok (.tailPromise e2 env2), st2) => trampoline f e2 env2 st2
      | r => r := rfl

theorem pure_st {α : Type} (a : α) (st : Store) :
    (pure a : M α) st = (.ok a, st) := rfl

theorem bind_st {α β : Type} (x : M α) (f : α → M β) (st : Store) :
    (x >>= f) st =
      match x st with
      | (.ok a, st') => f a st'
      | (.error e, st') => (.error e, st') := rfl

theorem frameLookup_frameSet_self (f : Frame) (s : String) (v : Value) :
    frameLookup (frameSet f s v) s = some v := by
  induction f with
  | nil => simp [frameSet, frameLookup]
  | cons p rest ih =>
      by_cases h : p.1 = s
      · simp [frameSet, h, frameLookup]
      · simp [frameSet, h, frameLookup, ih]

theorem frameLookup_frameSet_ne (f : Frame) (s s' : String) (v : Value)
    (h : s ≠ s') :
    frameLookup (frameSet f s v) s' = frameLookup f s' := by
  induction f with
  | nil => simp [frameSet, frameLookup, h]
  | cons p rest ih =>
      by_cases hp : p.1 = s
      · simp [frameSet, hp, frameLookup, h]
      · simp [frameSet, hp, frameLookup, ih]

theorem getFrame_setFrame_ne (st : Store) (i j : Nat) (f : Frame)
    (h : i ≠ j) : getFrame (setFrame st i f) j = getFrame st j := by
  induction st generalizing i j with
  | nil => simp [setFrame, getFrame]
  | cons fr rest ih =>
      cases i with
      | zero =>
          cases j with
          | zero => exact absurd rfl h
          | succ j' => simp [setFrame, getFrame, List.getD]
      | succ i' =>
          cases j with
          | zero => simp [setFrame, getFrame, List.getD]
          | succ j' =>
              have := ih i' j' (fun hc => h (by rw [hc]))
              simpa [setFrame, getFrame, List.getD] using this

end TinySCM

namespace TinySCM

/-- The trampoline loop never hands an `ok` TailPromise to its caller:
the loop condition re-enters evaluation on exactly that case. -/
theorem trampoline_no_tailPromise (f : Nat) :
    ∀ (expr : Value) (env : Env) (st : Store) (v : Value) (st' : Store),
      trampoline f expr env st = (.ok v, st') → isTailPromiseV v = false := by
  induction f with
  | zero =>
      intro expr env st v st' h
      simp [trampoline, raiseM] at h
  | succ g ih =>
      intro expr env st v st' h
      have heq : trampoline (g + 1) expr env st =
          match rawEvalG (fun e2 env2 t2 =>
              if tailCheck e2 t2 then pure (.tailPromise e2 env2)
              else trampoline g e2 env2) expr env st with
          | (.ok (.tailPromise e2 env2), st2) => trampoline g e2 env2 st2
          | r => r := rfl
      rw [heq] at h
      rcases hres : rawEvalG (fun e2 env2 t2 =>
          if tailCheck e2 t2 then pure (.tailPromise e2 env2)
          else trampoline g e2 env2) expr env st with ⟨r, st2⟩
      rw [hres] at h
      rcases r with e2 | v2
      case error =>
        simp only [Prod.mk.injEq] at h
        exact absurd h.1 (by simp)
      · cases v2 with
        | tailPromise e2 env2 => exact ih e2 env2 st2 v st' h
        | bool b =>
            simp only [Prod.mk.injEq, Except.ok.injEq] at h
            rw [← h.1]; rfl
        | int n =>
            simp only [Prod.mk.injEq, Except.ok.injEq] at h
            rw [← h.1]; rfl
        | real q =>
            simp only [Prod.mk.injEq, Except.ok.injEq] at h
            rw [← h.1]; rfl
        | str s =>
            simp only [Prod.mk.injEq, Except.ok.injEq] at h
            rw [← h.1]; rfl
        | sym s =>
            simp only [Prod.mk.injEq, Except.ok.injEq] at h
            rw [← h.1]; rfl
        | nil =>
            simp only [Prod.mk.injEq, Except.ok.injEq] at h
            rw [← h.1]; rfl
        | unspec =>
            simp only [Prod.mk.injEq, Except.ok.injEq] at h
            rw [← h.1]; rfl
        | pair a b =>
            simp only [Prod.mk.injEq, Except.ok.injEq] at h
            rw [← h.1]; rfl
        | primProc op nm ue =>
            simp only [Prod.mk.injEq, Except.ok.injEq] at h
            rw [← h.1]; rfl
        | lambdaProc p b e =>
            simp only [Prod.mk.injEq, Except.ok.injEq] at h
            rw [← h.1]; rfl
        | dlambdaProc p b =>
            simp only [Prod.mk.injEq, Except.ok.injEq] at h
            rw [← h.1]; rfl
        | macProc p b e =>
            simp only [Prod.mk.injEq, Except.ok.injEq] at h
            rw [← h.1]; rfl
        | promise e en =>
            simp only [Prod.mk.injEq, Except.ok.injEq] at h
            rw [← h.1]; rfl

/-- Claim C1.  The trampoline contract of the tail-call-optimized
evaluator (`optimize_tail_calls` / `optimized_eval`, with
`complete_apply` as a forcing boundary):  (1) called with `tail = true`
on an expression that is neither a self-evaluating atom nor a bare
variable symbol, it immediately returns a TailPromise capturing exactly
that (expression, environment) pair, leaving the store untouched;
(2) called with `tail = false` (the default at every public entry
point), any value it returns is never a TailPromise — the loop re-enters
evaluation on the captured pair until a non-TailPromise is produced
(the loop shape itself is `trampoline_succ`);  (3) `complete_apply`
forces a TailPromise result of `scheme_apply` through the evaluator
instead of returning it. -/
theorem c1_trampoline_contract :
    (∀ (f : Nat) (expr : Value) (env : Env) (st : Store),
        isSchemeVariable expr = false → isSelfEvaluating expr = false →
        schemeEval f expr env true st = (.ok (.tailPromise expr env), st))
    ∧ (∀ (f : Nat) (expr : Value) (env : Env) (st : Store) (v : Value)
        (st' : Store),
        schemeEval f expr env false st = (.ok v, st') →
        isTailPromiseV v = false)
    ∧ (∀ (ev : EvalFn) (procV args : Value) (env : Env) (st st1 : Store)
        (e2 : Value) (env2 : Env),
        schemeApplyG ev procV args env st = (.ok (.tailPromise e2 env2), st1) →
        completeApplyG ev procV args env st = ev e2 env2 false st1) := by
  refine ⟨?_, ?_, ?_⟩
  · intro f expr env st h1 h2
    simp [schemeEval, tailCheck, h1, h2, pure_st]
  · intro f expr env st v st' h
    have heq : schemeEval f expr env false st = trampoline f expr env st := rfl
    rw [heq] at h
    exact trampoline_no_tailPromise f expr env st v st' h
  · intro ev procV args env st st1 e2 env2 h
    show (schemeApplyG ev procV args env >>= fun val =>
        match val with
        | .tailPromise e env' => ev e env' false
        | v => pure v) st = ev e2 env2 false st1
    rw [bind_st, h]

/-- Witness for C1 at concrete inputs: `(quote 1)` is neither
self-evaluating nor a variable, so `tail = true` defers it; with
`tail = false` the evaluator's result on the literal `5` is not a
TailPromise. -/
theorem c1_trampoline_contract_witness :
    schemeEval 5 (.pair (.sym "quote") (.pair (.int 1) .nil)) [] true []
      = (.ok (.tailPromise (.pair (.sym "quote") (.pair (.int 1) .nil)) []),
         []) ∧
    isTailPromiseV (.int 5) = false := by
  refine ⟨c1_trampoline_contract.1 5 _ [] [] rfl rfl, ?_⟩
  exact c1_trampoline_contract.2.1 5 (.int 5) [] [] (.int 5) [] rfl

end TinySCM

namespace TinySCM

/-- Claim C2.  The quasiquote walker: (1) a non-Pair template is
returned unchanged (store untouched); (2) `(unquote e)` at depth 1
evaluates `e` in the current environment; (3) `(unquote e)` at depth
`d ≥ 2` recurses into `e` at the decremented depth with the `unquote`
wrapper preserved; (4) `(quasiquote e)` recurses at the incremented
depth with the `quasiquote` wrapper preserved; (5) any other Pair is
mapped element-wise (first element, then the checked walk of the rest);
(6) in particular the quasiquote form over the template
`(a (quasiquote (b (unquote (+ 1 2)))))` evaluates to that very
template, the inner unquote left unevaluated. -/
theorem pure_bind_st {α β : Type} (a : α) (f : α → M β) :
    (pure a >>= f) = f a := rfl

theorem bind_assoc_st {α β γ : Type} (x : M α) (f : α → M β)
    (g : β → M γ) :
    ((x >>= f) >>= g) = (x >>= fun a => f a >>= g) := by
  funext st
  rw [bind_st (x >>= f) g st, bind_st x f st,
    bind_st x (fun a => f a >>= g) st]
  rcases x st with ⟨r, st'⟩
  rcases r with e | a
  · rfl
  · rfl

theorem c2_quasiquote_walker :
    (∀ (ev : EvalFn) (env : Env) (v : Value) (d : Int) (st : Store),
        isSchemePair v = false →
        quasiquoteItemG ev env v d st = (.ok v, st))
    ∧ (∀ (ev : EvalFn) (env : Env) (e : Value),
        quasiquoteItemG ev env (.pair (.sym "unquote") (.pair e .nil)) 1
          = ev e env false)
    ∧ (∀ (ev : EvalFn) (env : Env) (e : Value) (d : Int),
        2 ≤ d →
        quasiquoteItemG ev env (.pair (.sym "unquote") (.pair e .nil)) d
          = (quasiquoteItemG ev env e (d - 1) >>= fun m =>
              pure (.pair (.sym "unquote") (.pair m .nil))))
    ∧ (∀ (ev : EvalFn) (env : Env) (e : Value) (d : Int),
        quasiquoteItemG ev env (.pair (.sym "quasiquote") (.pair e .nil)) d
          = (quasiquoteItemG ev env e (d + 1) >>= fun m =>
              pure (.pair (.sym "quasiquote") (.pair m .nil))))
    ∧ (∀ (ev : EvalFn) (env : Env) (a r : Value) (d : Int),
        a ≠ .sym "unquote" → a ≠ .sym "quasiquote" →
        quasiquoteItemG ev env (.pair a r) d
          = (quasiquoteItemG ev env a d >>= fun ma =>
              if r = .nil || isSchemePair r then
                qqAux ev env false d r >>= fun mr => pure (.pair ma mr)
              else
                raiseM (.hostTypeError "ill-formed list (cdr is a promise)")))
    ∧ schemeEval 10 (.pair (.sym "quasiquote") (.pair qqTemplate .nil)) []
        false [] = (.ok qqTemplate, []) := by
  refine ⟨?_, ?_, ?_, ?_, ?_, rfl⟩
  · intro ev env v d st h
    cases v <;> first | rfl | simp [isSchemePair] at h
  · intro ev env e
    rfl
  · intro ev env e d hd
    have h0 : d - 1 ≠ 0 := by omega
    simp only [quasiquoteItemG, qqAux, h0, and_false, if_false, pure_bind_st,
      bind_assoc_st, true_and, if_true, and_true, decide_True, Bool.true_or,
      Bool.or_true, isSchemePair]
  · intro ev env e d
    have hne1 : Value.sym "quasiquote" ≠ Value.sym "unquote" := by decide
    simp only [quasiquoteItemG, qqAux, hne1, false_and, if_false,
      pure_bind_st, bind_assoc_st, true_and, if_true, and_true, decide_True,
      Bool.true_or, Bool.or_true, isSchemePair, if_neg hne1, if_pos rfl]
  · intro ev env a r d ha hq
    simp only [quasiquoteItemG, qqAux, ha, hq, false_and, if_false,
      if_neg ha, if_neg hq]

/-- Witness for C2: each hypothesis-bearing conjunct applied at a
concrete input (a non-pair template; a nested unquote at depth 2; an
ordinary pair mapped element-wise). -/
theorem c2_quasiquote_walker_witness :
    quasiquoteItemG (fun _ _ _ => pure .unspec) [] (.int 7) 1 []
      = (.ok (.int 7), []) ∧
    quasiquoteItemG (fun _ _ _ => pure .unspec) []
      (.pair (.sym "unquote") (.pair (.int 3) .nil)) 2 []
      = (.ok (.pair (.sym "unquote") (.pair (.int 3) .nil)), []) ∧
    quasiquoteItemG (fun _ _ _ => pure .unspec) []
      (.pair (.int 1) (.pair (.int 2) .nil)) 1 []
      = (.ok (.pair (.int 1) (.pair (.int 2) .nil)), []) := by
  refine ⟨c2_quasiquote_walker.1 (fun _ _ _ => pure .unspec) [] (.int 7) 1 []
    rfl, ?_, ?_⟩
  · rw [c2_quasiquote_walker.2.2.1 (fun _ _ _ => pure .unspec) [] (.int 3) 2
      (by omega)]
    rfl
  · rw [c2_quasiquote_walker.2.2.2.2.1 (fun _ _ _ => pure .unspec) []
      (.int 1) (.pair (.int 2) .nil) 1 (by decide) (by decide)]
    rfl

end TinySCM

namespace TinySCM

/-- One step of the `env_loop` of `set_variable_value`. -/
theorem setVarLoop_cons (fid : Nat) (rest : Env) (s : String)
    (val : Value) (st : Store) :
    setVarLoop (fid :: rest) s val st =
      if frameContains (getFrame st fid) s then
        (.ok (), setFrame st fid (frameSet (getFrame st fid) s val))
      else setVarLoop rest s val st := by
  have h0 : setVarLoop (fid :: rest) s val st =
      (if frameContains (getFrame st fid) s then
        writeFrame fid (frameSet (getFrame st fid) s val)
      else setVarLoop rest s val) st := rfl
  rw [h0, apply_ite (fun m : M Unit => m st)]
  rfl

/-- Claim C3.  `set!` semantics: (1) walking youngest to oldest, the
first frame whose bindings contain the variable is mutated, and the
resulting store differs only there — (2) the mutated frame binds the
variable to the new value, (3) its other bindings are untouched, and
(4) every other store index is untouched; (5) when no frame in the chain
contains the variable, a SchemeError reporting `Unbound variable` is
raised and the store is returned unchanged (no frame gains a binding);
(6) on success the `set!` special form returns the Unspecified value. -/
theorem c3_set_variable :
    (∀ (pre : List Nat) (fid : Nat) (post : List Nat) (s : String)
        (val : Value) (st : Store),
        (∀ g ∈ pre, frameContains (getFrame st g) s = false) →
        frameContains (getFrame st fid) s = true →
        setVarLoop (pre ++ fid :: post) s val st =
          (.ok (), setFrame st fid (frameSet (getFrame st fid) s val)))
    ∧ (∀ (f : Frame) (s : String) (v : Value),
        frameLookup (frameSet f s v) s = some v)
    ∧ (∀ (f : Frame) (s s' : String) (v : Value), s ≠ s' →
        frameLookup (frameSet f s v) s' = frameLookup f s')
    ∧ (∀ (st : Store) (i j : Nat) (f : Frame), i ≠ j →
        getFrame (setFrame st i f) j = getFrame st j)
    ∧ (∀ (env : Env) (s : String) (val : Value) (st : Store),
        (∀ g ∈ env, frameContains (getFrame st g) s = false) →
        setVarLoop env s val st =
          (.error (.scheme ("Unbound variable: " ++ s)), st))
    ∧ (∀ (ev : EvalFn) (var : String) (vexpr r : Value) (env : Env)
        (st st1 st2 : Store) (v : Value),
        ev vexpr env false st = (.ok v, st1) →
        setVarLoop env var v st1 = (.ok (), st2) →
        evalAssignmentG ev (.pair (.sym var) (.pair vexpr r)) env st =
          (.ok .unspec, st2)) := by
  refine ⟨?_, frameLookup_frameSet_self, frameLookup_frameSet_ne,
    getFrame_setFrame_ne, ?_, ?_⟩
  · intro pre
    induction pre with
    | nil =>
        intro fid post s val st _ hfid
        rw [List.nil_append, setVarLoop_cons, if_pos hfid]
    | cons g pre' ih =>
        intro fid post s val st hpre hfid
        rw [List.cons_append, setVarLoop_cons,
          if_neg (by rw [hpre g (List.mem_cons_self g pre')]; decide)]
        exact ih fid post s val st
          (fun g' hg' => hpre g' (List.mem_cons_of_mem g hg')) hfid
  · intro env s val st h
    induction env with
    | nil => rfl
    | cons g rest ih =>
        rw [setVarLoop_cons,
          if_neg (by rw [h g (List.mem_cons_self g rest)]; decide)]
        exact ih (fun g' hg' => h g' (List.mem_cons_of_mem g hg'))
  · intro ev var vexpr r env st st1 st2 v hev hset
    have h1 : evalAssignmentG ev (.pair (.sym var) (.pair vexpr r)) env st
        = (ev vexpr env false >>= fun v =>
            setVariableValue env (.sym var) v >>= fun _ => pure .unspec) st :=
      rfl
    rw [h1, bind_st, hev]
    show (setVariableValue env (.sym var) v >>= fun _ => pure Value.unspec) st1
      = (.ok .unspec, st2)
    rw [bind_st,
      show setVariableValue env (.sym var) v = setVarLoop env var v from rfl,
      hset]
    rfl

/-- Witness for C3 at a concrete three-frame chain: `x` is bound in the
middle frame (and, shadowed, in the oldest); `set!` mutates only the
middle frame; an absent variable reports unbound with the store
unchanged; the handler returns Unspecified. -/
theorem c3_set_variable_witness :
    setVarLoop [0, 1, 2] "x" (.int 7)
      [[("y", .int 0)], [("x", .int 1), ("z", .int 5)], [("x", .int 9)]]
      = (.ok (),
         [[("y", .int 0)], [("x", .int 7), ("z", .int 5)], [("x", .int 9)]]) ∧
    setVarLoop [0] "q" (.int 7) [[("y", .int 0)]]
      = (.error (.scheme "Unbound variable: q"), [[("y", .int 0)]]) ∧
    evalAssignmentG (fun _ _ _ => pure (.int 7))
      (.pair (.sym "x") (.pair (.int 7) .nil)) [0, 1, 2]
      [[("y", .int 0)], [("x", .int 1), ("z", .int 5)], [("x", .int 9)]]
      = (.ok .unspec,
         [[("y", .int 0)], [("x", .int 7), ("z", .int 5)], [("x", .int 9)]]) := by
  refine ⟨?_, ?_, ?_⟩
  · exact c3_set_variable.1 [0] 1 [2] "x" (.int 7) _
      (by intro g hg; simp at hg; subst hg; rfl) rfl
  · exact c3_set_variable.2.2.2.2.1 [0] "q" (.int 7) _
      (by intro g hg; simp at hg; subst hg; rfl)
  · exact c3_set_variable.2.2.2.2.2 (fun _ _ _ => pure (.int 7)) "x"
      (.int 7) .nil [0, 1, 2] _ _ _ (.int 7) rfl
      (c3_set_variable.1 [0] 1 [2] "x" (.int 7) _
        (by intro g hg; simp at hg; subst hg; rfl) rfl)

end TinySCM

namespace TinySCM

/-- Claim C4.  The `if` form: the predicate is evaluated first; a truthy
predicate evaluates the consequent with the caller's tail flag (both for
`(if p c)` and `(if p c a)`); a falsy predicate evaluates the
alternative with the tail flag when present and otherwise returns the
boolean false; a truthy predicate whose consequent slot holds the `None`
produced by `cond` desugaring returns the predicate value itself; and
`cond_to_if` on a predicate-only clause produces exactly such an `if`
with `None` in both the consequent and alternative slots. -/
theorem c4_if_form :
    (∀ (ev : EvalFn) (p c : Value) (env : Env) (tail : Bool)
        (st st1 : Store) (pv : Value),
        ev p env false st = (.ok pv, st1) → isSchemeTrue pv = true →
        c ≠ .unspec →
        evalIfG ev (.pair p (.pair c .nil)) env tail st = ev c env tail st1)
    ∧ (∀ (ev : EvalFn) (p c : Value) (env : Env) (tail : Bool)
        (st st1 : Store) (pv : Value),
        ev p env false st = (.ok pv, st1) → isSchemeTrue pv = false →
        evalIfG ev (.pair p (.pair c .nil)) env tail st =
          (.ok (.bool false), st1))
    ∧ (∀ (ev : EvalFn) (p c a : Value) (env : Env) (tail : Bool)
        (st st1 : Store) (pv : Value),
        ev p env false st = (.ok pv, st1) → isSchemeTrue pv = true →
        c ≠ .unspec →
        evalIfG ev (.pair p (.pair c (.pair a .nil))) env tail st =
          ev c env tail st1)
    ∧ (∀ (ev : EvalFn) (p c a : Value) (env : Env) (tail : Bool)
        (st st1 : Store) (pv : Value),
        ev p env false st = (.ok pv, st1) → isSchemeTrue pv = false →
        evalIfG ev (.pair p (.pair c (.pair a .nil))) env tail st =
          ev a env tail st1)
    ∧ (∀ (ev : EvalFn) (p a : Value) (env : Env) (tail : Bool)
        (st st1 : Store) (pv : Value),
        ev p env false st = (.ok pv, st1) → isSchemeTrue pv = true →
        evalIfG ev (.pair p (.pair .unspec (.pair a .nil))) env tail st =
          (.ok pv, st1))
    ∧ (∀ (ev : EvalFn) (p : Value) (env : Env) (tail : Bool)
        (st st1 : Store) (pv : Value),
        ev p env false st = (.ok pv, st1) → isSchemeTrue pv = true →
        evalIfG ev (.pair p (.pair .unspec .nil)) env tail st =
          (.ok pv, st1))
    ∧ (∀ (pred : Value), pred ≠ .sym "else" →
        condToIf (.pair (.pair pred .nil) .nil) =
          .ok (makeIf pred .unspec .unspec)) := by
  refine ⟨?_, ?_, ?_, ?_, ?_, ?_, ?_⟩
  · intro ev p c env tail st st1 pv hev ht hc
    have h0 : evalIfG ev (.pair p (.pair c .nil)) env tail st =
        (ev p env false >>= fun pv =>
          if isSchemeTrue pv then
            (if c = .unspec then pure pv else ev c env tail)
          else pure (.bool false)) st := rfl
    rw [h0, bind_st, hev]
    show (if isSchemeTrue pv then
        (if c = .unspec then pure pv else ev c env tail)
      else pure (.bool false)) st1 = ev c env tail st1
    rw [if_pos ht, if_neg hc]
  · intro ev p c env tail st st1 pv hev hf
    have h0 : evalIfG ev (.pair p (.pair c .nil)) env tail st =
        (ev p env false >>= fun pv =>
          if isSchemeTrue pv then
            (if c = .unspec then pure pv else ev c env tail)
          else pure (.bool false)) st := rfl
    rw [h0, bind_st, hev]
    show (if isSchemeTrue pv then
        (if c = .unspec then pure pv else ev c env tail)
      else pure (.bool false)) st1 = (.ok (.bool false), st1)
    rw [if_neg (by rw [hf]; decide)]
    rfl
  · intro ev p c a env tail st st1 pv hev ht hc
    have h0 : evalIfG ev (.pair p (.pair c (.pair a .nil))) env tail st =
        (ev p env false >>= fun pv =>
          if isSchemeTrue pv then
            (if c = .unspec then pure pv else ev c env tail)
          else ev a env tail) st := rfl
    rw [h0, bind_st, hev]
    show (if isSchemeTrue pv then
        (if c = .unspec then pure pv else ev c env tail)
      else ev a env tail) st1 = ev c env tail st1
    rw [if_pos ht, if_neg hc]
  · intro ev p c a env tail st st1 pv hev hf
    have h0 : evalIfG ev (.pair p (.pair c (.pair a .nil))) env tail st =
        (ev p env false >>= fun pv =>
          if isSchemeTrue pv then
            (if c = .unspec then pure pv else ev c env tail)
          else ev a env tail) st := rfl
    rw [h0, bind_st, hev]
    show (if isSchemeTrue pv then
        (if c = .unspec then pure pv else ev c env tail)
      else ev a env tail) st1 = ev a env tail st1
    rw [if_neg (by rw [hf]; decide)]
  · intro ev p a env tail st st1 pv hev ht
    have h0 : evalIfG ev (.pair p (.pair .unspec (.pair a .nil))) env tail st =
        (ev p env false >>= fun pv =>
          if isSchemeTrue pv then pure pv else ev a env tail) st := rfl
    rw [h0, bind_st, hev]
    show (if isSchemeTrue pv then pure pv else ev a env tail) st1
      = (.ok pv, st1)
    rw [if_pos ht]
    rfl
  · intro ev p env tail st st1 pv hev ht
    have h0 : evalIfG ev (.pair p (.pair .unspec .nil)) env tail st =
        (ev p env false >>= fun pv =>
          if isSchemeTrue pv then pure pv else pure (.bool false)) st := rfl
    rw [h0, bind_st, hev]
    show ((if isSchemeTrue pv then pure pv else pure (.bool false)) :
      M Value) st1 = (.ok pv, st1)
    rw [if_pos ht]
    rfl
  · intro pred hp
    have h0 : condToIf (.pair (.pair pred .nil) .nil) =
        if pred = .sym "else" then .ok (sequenceToExpr .nil)
        else .ok (makeIf pred .unspec .unspec) := rfl
    rw [h0, if_neg hp]

/-- Witness for C4 at concrete inputs: a true predicate selects the
consequent and a false one the alternative; a `cond`-produced `None`
consequent returns the predicate value. -/
theorem c4_if_form_witness :
    evalIfG (fun e _ _ => pure e)
      (.pair (.bool true) (.pair (.int 1) (.pair (.int 2) .nil))) [] false []
      = (.ok (.int 1), []) ∧
    evalIfG (fun e _ _ => pure e)
      (.pair (.bool false) (.pair (.int 1) (.pair (.int 2) .nil))) [] false []
      = (.ok (.int 2), []) ∧
    evalIfG (fun e _ _ => pure e)
      (.pair (.int 7) (.pair .unspec (.pair (.int 2) .nil))) [] false []
      = (.ok (.int 7), []) ∧
    condToIf (.pair (.pair (.int 3) .nil) .nil) =
      .ok (makeIf (.int 3) .unspec .unspec) := by
  refine ⟨?_, ?_, ?_, c4_if_form.2.2.2.2.2.2 (.int 3) (by decide)⟩
  · rw [c4_if_form.2.2.1 (fun e _ _ => pure e) (.bool true) (.int 1) (.int 2)
      [] false [] [] (.bool true) rfl rfl (by decide)]
    rfl
  · rw [c4_if_form.2.2.2.1 (fun e _ _ => pure e) (.bool false) (.int 1)
      (.int 2) [] false [] [] (.bool false) rfl rfl]
    rfl
  · exact c4_if_form.2.2.2.2.1 (fun e _ _ => pure e) (.int 7) (.int 2)
      [] false [] [] (.int 7) rfl rfl

end TinySCM

namespace TinySCM

/-- Claim C5.  Short-circuit `and`/`or`:  `(and)` is true and `(or)` is
false; a single (last) operand is evaluated with the caller's tail flag
and its value returned; with more operands the first is evaluated
without the tail flag, `and` short-circuits to false on a falsy value
and otherwise recurs on the rest (tail flag true again by default), and
`or` short-circuits to the first truthy value and otherwise recurs —
in both forms the store of the short-circuit is the store after the
first operand, so nothing later is evaluated. -/
theorem c5_and_or :
    (∀ (ev : EvalFn) (env : Env) (tail : Bool) (st : Store),
        evalAndG ev env tail .nil st = (.ok (.bool true), st))
    ∧ (∀ (ev : EvalFn) (env : Env) (tail : Bool) (st : Store),
        evalOrG ev env tail .nil st = (.ok (.bool false), st))
    ∧ (∀ (ev : EvalFn) (env : Env) (tail : Bool) (e : Value) (st : Store),
        evalAndG ev env tail (.pair e .nil) st = ev e env tail st)
    ∧ (∀ (ev : EvalFn) (env : Env) (tail : Bool) (e : Value) (st : Store),
        evalOrG ev env tail (.pair e .nil) st = ev e env tail st)
    ∧ (∀ (ev : EvalFn) (env : Env) (tail : Bool) (e r1 r2 : Value)
        (st st1 : Store) (v : Value),
        ev e env false st = (.ok v, st1) → isSchemeFalse v = true →
        evalAndG ev env tail (.pair e (.pair r1 r2)) st =
          (.ok (.bool false), st1))
    ∧ (∀ (ev : EvalFn) (env : Env) (tail : Bool) (e r1 r2 : Value)
        (st st1 : Store) (v : Value),
        ev e env false st = (.ok v, st1) → isSchemeFalse v = false →
        evalAndG ev env tail (.pair e (.pair r1 r2)) st =
          evalAndG ev env true (.pair r1 r2) st1)
    ∧ (∀ (ev : EvalFn) (env : Env) (tail : Bool) (e r1 r2 : Value)
        (st st1 : Store) (v : Value),
        ev e env false st = (.ok v, st1) → isSchemeTrue v = true →
        evalOrG ev env tail (.pair e (.pair r1 r2)) st = (.ok v, st1))
    ∧ (∀ (ev : EvalFn) (env : Env) (tail : Bool) (e r1 r2 : Value)
        (st st1 : Store) (v : Value),
        ev e env false st = (.ok v, st1) → isSchemeTrue v = false →
        evalOrG ev env tail (.pair e (.pair r1 r2)) st =
          evalOrG ev env true (.pair r1 r2) st1) := by
  refine ⟨fun _ _ _ _ => rfl, fun _ _ _ _ => rfl, fun _ _ _ _ _ => rfl,
    fun _ _ _ _ _ => rfl, ?_, ?_, ?_, ?_⟩
  · intro ev env tail e r1 r2 st st1 v hev hf
    have h0 : evalAndG ev env tail (.pair e (.pair r1 r2)) st =
        (ev e env false >>= fun v =>
          if isSchemeFalse v then pure (.bool false)
          else evalAndG ev env true (.pair r1 r2)) st := rfl
    rw [h0, bind_st, hev]
    show (if isSchemeFalse v then pure (.bool false)
      else evalAndG ev env true (.pair r1 r2)) st1 = (.ok (.bool false), st1)
    rw [if_pos hf]
    rfl
  · intro ev env tail e r1 r2 st st1 v hev hf
    have h0 : evalAndG ev env tail (.pair e (.pair r1 r2)) st =
        (ev e env false >>= fun v =>
          if isSchemeFalse v then pure (.bool false)
          else evalAndG ev env true (.pair r1 r2)) st := rfl
    rw [h0, bind_st, hev]
    show (if isSchemeFalse v then pure (.bool false)
      else evalAndG ev env true (.pair r1 r2)) st1 =
        evalAndG ev env true (.pair r1 r2) st1
    rw [if_neg (by rw [hf]; decide)]
  · intro ev env tail e r1 r2 st st1 v hev ht
    have h0 : evalOrG ev env tail (.pair e (.pair r1 r2)) st =
        (ev e env false >>= fun v =>
          if isSchemeTrue v then pure v
          else evalOrG ev env true (.pair r1 r2)) st := rfl
    rw [h0, bind_st, hev]
    show (if isSchemeTrue v then pure v
      else evalOrG ev env true (.pair r1 r2)) st1 = (.ok v, st1)
    rw [if_pos ht]
    rfl
  · intro ev env tail e r1 r2 st st1 v hev ht
    have h0 : evalOrG ev env tail (.pair e (.pair r1 r2)) st =
        (ev e env false >>= fun v =>
          if isSchemeTrue v then pure v
          else evalOrG ev env true (.pair r1 r2)) st := rfl
    rw [h0, bind_st, hev]
    show (if isSchemeTrue v then pure v
      else evalOrG ev env true (.pair r1 r2)) st1 =
        evalOrG ev env true (.pair r1 r2) st1
    rw [if_neg (by rw [ht]; decide)]

/-- Witness for C5: short-circuiting at concrete operand lists. -/
theorem c5_and_or_witness :
    evalAndG (fun e _ _ => pure e) [] true
      (.pair (.bool false) (.pair (.sym "never") .nil)) []
      = (.ok (.bool false), []) ∧
    evalOrG (fun e _ _ => pure e) [] true
      (.pair (.int 10) (.pair (.sym "never") .nil)) []
      = (.ok (.int 10), []) ∧
    evalAndG (fun e _ _ => pure e) [] true
      (.pair (.int 1) (.pair (.int 2) .nil)) [] = (.ok (.int 2), []) := by
  refine ⟨c5_and_or.2.2.2.2.1 (fun e _ _ => pure e) [] true (.bool false)
    (.sym "never") .nil [] [] (.bool false) rfl rfl,
    c5_and_or.2.2.2.2.2.2.1 (fun e _ _ => pure e) [] true (.int 10)
    (.sym "never") .nil [] [] (.int 10) rfl rfl, ?_⟩
  rw [c5_and_or.2.2.2.2.2.1 (fun e _ _ => pure e) [] true (.int 1)
    (.int 2) .nil [] [] (.int 1) rfl rfl]
  exact c5_and_or.2.2.1 (fun e _ _ => pure e) [] true (.int 2) []

end TinySCM

namespace TinySCM

/-- Counterexample to claim C6 as stated.  For the promise `(delay 1)`,
`(force p)` evaluates to `1`, but `(force (force p))` raises the
wrong-type SchemeError of `validate_type` (force requires a Promise),
so `(force (force p)) ≠ (force p)`. -/
theorem c6_force_idempotence_cex :
    schemeEval 20
      (listV [.sym "force", listV [.sym "force", listV [.sym "delay", .int 1]]])
      env0 false store0
      = (.error (.scheme "argument 0 of stream-force has wrong type (int)"),
         store0) ∧
    schemeEval 20 (listV [.sym "force", listV [.sym "delay", .int 1]])
      env0 false store0
      = (.ok (.int 1), store0) := ⟨rfl, rfl⟩

/-- Claim C6, amended.  `force` evaluates the promise's stored
expression in its stored environment (with no memoization), and raises a
wrong-type SchemeError when its argument is not a promise; so forcing is
not idempotent — whenever `(force p)` produces a non-promise value,
`(force (force p))` raises instead of returning that value again. -/
theorem c6_force_behavior :
    (∀ (ev : EvalFn) (env : Env) (e : Value) (penv : Env) (st : Store),
        runPrimG ev env .force [.promise e penv] st = ev e penv false st)
    ∧ (∀ (ev : EvalFn) (env : Env) (v : Value) (st : Store),
        isSchemePromise v = false →
        runPrimG ev env .force [v] st =
          (.error (.scheme ("argument 0 of stream-force has wrong type (" ++
            typeName v ++ ")")), st)) := by
  refine ⟨fun _ _ _ _ _ => rfl, ?_⟩
  intro ev env v st h
  have h0 : runPrimG ev env .force [v] st =
      (liftE (validateType v isSchemePromise 0 "stream-force") >>= fun _ =>
        match v with
        | .promise e penv => ev e penv false
        | .tailPromise e penv => ev e penv false
        | _ => raiseM (.hostTypeError "unreachable: validated promise")) st :=
    rfl
  rw [h0, bind_st]
  have hv : validateType v isSchemePromise 0 "stream-force" =
      .error (.scheme ("argument 0 of stream-force has wrong type (" ++
        typeName v ++ ")")) := by
    rw [validateType, if_neg (by rw [h]; decide)]
    rfl
  rw [show liftE (validateType v isSchemePromise 0 "stream-force") st =
      (validateType v isSchemePromise 0 "stream-force", st) from rfl, hv]

/-- Witness for C6 (amended): `force` of a non-promise (the integer 1)
raises the wrong-type error. -/
theorem c6_force_behavior_witness :
    runPrimG (fun _ _ _ => pure .unspec) [] .force [.int 1] []
      = (.error (.scheme "argument 0 of stream-force has wrong type (int)"),
         []) :=
  c6_force_behavior.2 (fun _ _ _ => pure .unspec) [] (.int 1) [] rfl

end TinySCM

namespace TinySCM

/-- Counterexample to claim C7 as stated: `(expt 2.0 2)` has the
integer-valued mathematical result 4, yet the code returns the Real
`4.0` (no `_ensure_int` in `scheme_expt`), not an Integer. -/
theorem c7_normalization_cex :
    schemeExpt (.real 2) (.int 2) = .ok (.real 4) ∧
    (4 : ℚ).den = 1 ∧
    Value.real 4 ≠ Value.int 4 := ⟨rfl, rfl, by decide⟩

theorem ensureInt_norm (v : Value) : isNormalizedNum (ensureInt v) := by
  cases v with
  | real q =>
      by_cases hq : q.den = 1
      · intro q' h
        rw [ensureInt, if_pos hq] at h
        simp at h
      · intro q' h
        rw [ensureInt, if_neg hq] at h
        rw [Value.real.injEq] at h
        rw [← h]
        exact hq
  | bool b => intro q' h; simp [ensureInt] at h
  | int n => intro q' h; simp [ensureInt] at h
  | str s => intro q' h; simp [ensureInt] at h
  | sym s => intro q' h; simp [ensureInt] at h
  | nil => intro q' h; simp [ensureInt] at h
  | unspec => intro q' h; simp [ensureInt] at h
  | pair a b => intro q' h; simp [ensureInt] at h
  | primProc o n u => intro q' h; simp [ensureInt] at h
  | lambdaProc p b e => intro q' h; simp [ensureInt] at h
  | dlambdaProc p b => intro q' h; simp [ensureInt] at h
  | macProc p b e => intro q' h; simp [ensureInt] at h
  | promise e en => intro q' h; simp [ensureInt] at h
  | tailPromise e en => intro q' h; simp [ensureInt] at h

theorem except_bind_ok {α β : Type} (a : α) (f : α → Except Err β) :
    ((Except.ok a : Except Err α) >>= f) = f a := rfl

theorem except_bind_error {α β : Type} (e : Err) (f : α → Except Err β) :
    ((Except.error e : Except Err α) >>= f) = .error e := rfl

theorem zeroDivToScheme_ok {x : Except Err Value} {v : Value}
    (h : zeroDivToScheme x = .ok v) : x = .ok v := by
  rcases x with e | w
  · cases e <;> simp [zeroDivToScheme] at h
  · simpa [zeroDivToScheme] using h

theorem schemeArith_norm (fn : Value → Value → Value) (init : Value)
    (vals : List Value) (v : Value)
    (h : schemeArith fn init vals = .ok v) : isNormalizedNum v := by
  have h0 : schemeArith fn init vals =
      (checkNums vals >>= fun _ =>
        pure (ensureInt (vals.foldl fn init))) := rfl
  rw [h0] at h
  rcases hc : checkNums vals with e | u
  · rw [hc, except_bind_error] at h
    simp at h
  · rw [hc, except_bind_ok,
      show (pure (ensureInt (vals.foldl fn init)) : Except Err Value) =
        .ok (ensureInt (vals.foldl fn init)) from rfl,
      Except.ok.injEq] at h
    rw [← h]
    exact ensureInt_norm _

theorem schemeArithE_norm (fn : Value → Value → Except Err Value)
    (init : Value) (vals : List Value) (v : Value)
    (h : schemeArithE fn init vals = .ok v) : isNormalizedNum v := by
  have h0 : schemeArithE fn init vals =
      (checkNums vals >>= fun _ => foldE fn init vals >>= fun r =>
        pure (ensureInt r)) := rfl
  rw [h0] at h
  rcases hc : checkNums vals with e | u
  · rw [hc, except_bind_error] at h
    simp at h
  · rw [hc, except_bind_ok] at h
    rcases hf : foldE fn init vals with e | r
    · rw [hf, except_bind_error] at h
      simp at h
    · rw [hf, except_bind_ok,
        show (pure (ensureInt r) : Except Err Value) = .ok (ensureInt r)
          from rfl, Except.ok.injEq] at h
      rw [← h]
      exact ensureInt_norm _

/-- Claim C7, amended.  The operators `+ - * /` normalize: any value
they return is an Integer whenever it is integer-valued (never an
integral Real); `/` with a zero divisor raises the SchemeError
`division by zero` (both in the reciprocal and the multi-operand form);
but `abs`, `expt`, `modulo`, `quotient` and `remainder` do not
normalize — on Real operands they return integral Reals. -/
theorem c7_arith_normalization :
    (∀ (vals : List Value) (v : Value),
        schemeAdd vals = .ok v → isNormalizedNum v)
    ∧ (∀ (v0 : Value) (vals : List Value) (v : Value),
        schemeSub v0 vals = .ok v → isNormalizedNum v)
    ∧ (∀ (vals : List Value) (v : Value),
        schemeMul vals = .ok v → isNormalizedNum v)
    ∧ (∀ (v0 : Value) (vals : List Value) (v : Value),
        schemeDiv v0 vals = .ok v → isNormalizedNum v)
    ∧ (∀ (a : Value), isSchemeNumber a = true →
        schemeDiv a [.int 0] = .error (.scheme "division by zero"))
    ∧ schemeDiv (.int 0) [] = .error (.scheme "division by zero")
    ∧ (schemeExpt (.real 2) (.int 2) = .ok (.real 4) ∧
       schemeAbs (.real (-2)) = .ok (.real 2) ∧
       schemeModulo (.real 5) (.int 3) = .ok (.real 2) ∧
       schemeQuotient (.real 7) (.int 2) = .ok (.real 3) ∧
       schemeRemainder (.real 7) (.int 2) = .ok (.real 1)) := by
  refine ⟨fun vals v h => schemeArith_norm _ _ _ _ h, ?_,
    fun vals v h => schemeArith_norm _ _ _ _ h, ?_, ?_, rfl,
    rfl, rfl, rfl, rfl, rfl⟩
  · intro v0 vals v h
    have h0 : schemeSub v0 vals =
        (checkNums (v0 :: vals) >>= fun _ =>
          if vals.isEmpty then pure (ensureInt (pyNeg v0))
          else schemeArith pySub v0 vals) := rfl
    rw [h0] at h
    rcases hc : checkNums (v0 :: vals) with e | u
    · rw [hc, except_bind_error] at h
      simp at h
    · rw [hc, except_bind_ok] at h
      by_cases he : vals.isEmpty
      · rw [if_pos he,
          show (pure (ensureInt (pyNeg v0)) : Except Err Value) =
            .ok (ensureInt (pyNeg v0)) from rfl, Except.ok.injEq] at h
        rw [← h]
        exact ensureInt_norm _
      · rw [if_neg he] at h
        exact schemeArith_norm _ _ _ _ h
  · intro v0 vals v h
    have h0 : schemeDiv v0 vals =
        (checkNums (v0 :: vals) >>= fun _ =>
          zeroDivToScheme
            (if vals.isEmpty then (pyTrueDiv (.int 1) v0).map ensureInt
             else schemeArithE pyTrueDiv v0 vals)) := rfl
    rw [h0] at h
    rcases hc : checkNums (v0 :: vals) with e | u
    · rw [hc, except_bind_error] at h
      simp at h
    · rw [hc, except_bind_ok] at h
      have h2 := zeroDivToScheme_ok h
      by_cases he : vals.isEmpty
      · rw [if_pos he] at h2
        rcases hp : pyTrueDiv (.int 1) v0 with e | w
        · rw [hp] at h2
          simp [Except.map] at h2
        · rw [hp] at h2
          simp only [Except.map, Except.ok.injEq] at h2
          rw [← h2]
          exact ensureInt_norm _
      · rw [if_neg he] at h2
        exact schemeArithE_norm _ _ _ _ h2
  · intro a ha
    have hc : checkNums [a, .int 0] = .ok () := by
      have hz : isSchemeNumber (Value.int 0) = true := rfl
      simp [checkNums, checkNumsAux, ha, hz]
    have h0 : schemeDiv a [.int 0] =
        (checkNums [a, .int 0] >>= fun _ =>
          zeroDivToScheme
            (if ([Value.int 0] : List Value).isEmpty then
              (pyTrueDiv (.int 1) a).map ensureInt
             else schemeArithE pyTrueDiv a [.int 0])) := rfl
    rw [h0, hc, except_bind_ok]
    rfl

/-- Witness for C7: the normalizing conjuncts applied at concrete
inputs (`(+ 1 2)` is the Integer 3 and is normalized; `(/ 1 0)` raises
the division-by-zero SchemeError). -/
theorem c7_arith_normalization_witness :
    isNormalizedNum (.int 3) ∧
    schemeDiv (.int 1) [.int 0] = .error (.scheme "division by zero") := by
  refine ⟨c7_arith_normalization.1 [.int 1, .int 2] (.int 3) rfl, ?_⟩
  exact c7_arith_normalization.2.2.2.2.1 (.int 1) rfl

end TinySCM

namespace TinySCM

/-- Counterexample to claim C9 as stated: `abs` is an arithmetic
primitive that takes numeric operands, yet it performs no
`_check_nums` — applied to the boolean `#t` it returns the host integer
1 instead of raising a SchemeError. -/
theorem c9_boolean_abs_cex :
    schemeAbs (.bool true) = .ok (.int 1) := rfl

/-- `_check_nums` raises on any operand list containing a boolean. -/
theorem checkNumsAux_bool (vals : List Value) :
    ∀ (i : Nat) (b : Bool), (.bool b) ∈ vals →
      ∃ m, checkNumsAux i vals = .error (.scheme m) := by
  induction vals with
  | nil =>
      intro i b hmem
      simp at hmem
  | cons v rest ih =>
      intro i b hmem
      by_cases hn : isSchemeNumber v = true
      · have hvb : v ≠ .bool b := by
          intro hv
          rw [hv] at hn
          simp [isSchemeNumber, isSchemeBoolean, isRealInstance] at hn
        rcases List.mem_cons.mp hmem with hv | hv
        · exact absurd hv.symm hvb
        · obtain ⟨m, hm⟩ := ih (i + 1) b hv
          refine ⟨m, ?_⟩
          rw [show checkNumsAux i (v :: rest) =
            (if isSchemeNumber v then checkNumsAux (i + 1) rest
             else .error (.scheme ("operand " ++ toString i ++ " (" ++
               pyStr v ++ ") is not a number"))) from rfl, if_pos hn, hm]
      · refine ⟨"operand " ++ toString i ++ " (" ++ pyStr v ++
          ") is not a number", ?_⟩
        rw [show checkNumsAux i (v :: rest) =
          (if isSchemeNumber v then checkNumsAux (i + 1) rest
           else .error (.scheme ("operand " ++ toString i ++ " (" ++
             pyStr v ++ ") is not a number"))) from rfl, if_neg hn]

theorem checkNums_bool (vals : List Value) (b : Bool)
    (hmem : (.bool b) ∈ vals) :
    ∃ m, checkNums vals = .error (.scheme m) :=
  checkNumsAux_bool vals 0 b hmem

/-- Claim C9, amended.  Booleans are not numbers at the public
interface: `number?` is false on both booleans; `+ - * /`, `expt`,
`modulo`, `quotient`, `remainder`, and every numeric comparison raise a
SchemeError on any boolean operand (the host treats booleans as
integers, which is exactly why `is_scheme_number` excludes them) — but
`abs` does not check and maps `#t`/`#f` to the host integers 1/0. -/
theorem c9_boolean_not_number :
    (∀ b : Bool, isSchemeNumber (.bool b) = false)
    ∧ (∀ (vals : List Value) (b : Bool), (.bool b) ∈ vals →
        ∃ m, schemeAdd vals = .error (.scheme m))
    ∧ (∀ (v0 : Value) (vals : List Value) (b : Bool),
        (.bool b) ∈ v0 :: vals →
        ∃ m, schemeSub v0 vals = .error (.scheme m))
    ∧ (∀ (vals : List Value) (b : Bool), (.bool b) ∈ vals →
        ∃ m, schemeMul vals = .error (.scheme m))
    ∧ (∀ (v0 : Value) (vals : List Value) (b : Bool),
        (.bool b) ∈ v0 :: vals →
        ∃ m, schemeDiv v0 vals = .error (.scheme m))
    ∧ (∀ (x y : Value) (b : Bool), x = .bool b ∨ y = .bool b →
        ∃ m, schemeExpt x y = .error (.scheme m))
    ∧ (∀ (x y : Value) (b : Bool), x = .bool b ∨ y = .bool b →
        ∃ m, schemeModulo x y = .error (.scheme m))
    ∧ (∀ (x y : Value) (b : Bool), x = .bool b ∨ y = .bool b →
        ∃ m, schemeQuotient x y = .error (.scheme m))
    ∧ (∀ (x y : Value) (b : Bool), x = .bool b ∨ y = .bool b →
        ∃ m, schemeRemainder x y = .error (.scheme m))
    ∧ (∀ (cmp : ℚ → ℚ → Bool) (x y : Value) (b : Bool),
        x = .bool b ∨ y = .bool b →
        ∃ m, schemeNumComp cmp x y = .error (.scheme m))
    ∧ (schemeAbs (.bool true) = .ok (.int 1) ∧
       schemeAbs (.bool false) = .ok (.int 0)) := by
  have hmem2 : ∀ (x y : Value) (b : Bool), x = .bool b ∨ y = .bool b →
      (Value.bool b) ∈ [x, y] := by
    rintro x y b (rfl | rfl) <;> simp
  refine ⟨fun b => rfl, ?_, ?_, ?_, ?_, ?_, ?_, ?_, ?_, ?_, rfl, rfl⟩
  · intro vals b hmem
    obtain ⟨m, hm⟩ := checkNums_bool vals b hmem
    refine ⟨m, ?_⟩
    rw [show schemeAdd vals = (checkNums vals >>= fun _ =>
      pure (ensureInt (vals.foldl pyAdd (.int 0)))) from rfl, hm,
      except_bind_error]
  · intro v0 vals b hmem
    obtain ⟨m, hm⟩ := checkNums_bool (v0 :: vals) b hmem
    refine ⟨m, ?_⟩
    rw [show schemeSub v0 vals = (checkNums (v0 :: vals) >>= fun _ =>
      if vals.isEmpty then pure (ensureInt (pyNeg v0))
      else schemeArith pySub v0 vals) from rfl, hm, except_bind_error]
  · intro vals b hmem
    obtain ⟨m, hm⟩ := checkNums_bool vals b hmem
    refine ⟨m, ?_⟩
    rw [show schemeMul vals = (checkNums vals >>= fun _ =>
      pure (ensureInt (vals.foldl pyMul (.int 1)))) from rfl, hm,
      except_bind_error]
  · intro v0 vals b hmem
    obtain ⟨m, hm⟩ := checkNums_bool (v0 :: vals) b hmem
    refine ⟨m, ?_⟩
    rw [show schemeDiv v0 vals = (checkNums (v0 :: vals) >>= fun _ =>
      zeroDivToScheme
        (if vals.isEmpty then (pyTrueDiv (.int 1) v0).map ensureInt
         else schemeArithE pyTrueDiv v0 vals)) from rfl, hm,
      except_bind_error]
  · intro x y b hxy
    obtain ⟨m, hm⟩ := checkNums_bool [x, y] b (hmem2 x y b hxy)
    refine ⟨m, ?_⟩
    rw [show schemeExpt x y = (checkNums [x, y] >>= fun _ => pyPow x y)
      from rfl, hm, except_bind_error]
  · intro x y b hxy
    obtain ⟨m, hm⟩ := checkNums_bool [x, y] b (hmem2 x y b hxy)
    refine ⟨m, ?_⟩
    rw [show schemeModulo x y = (checkNums [x, y] >>= fun _ =>
      zeroDivToScheme (pyMod x y)) from rfl, hm, except_bind_error]
  · intro x y b hxy
    obtain ⟨m, hm⟩ := checkNums_bool [x, y] b (hmem2 x y b hxy)
    refine ⟨m, ?_⟩
    rw [show schemeQuotient x y = (checkNums [x, y] >>= fun _ =>
      zeroDivToScheme
        (if numNeg x != numNeg y then (pyFloorDiv (pyNeg x) y).map pyNeg
         else pyFloorDiv x y)) from rfl, hm, except_bind_error]
  · intro x y b hxy
    obtain ⟨m, hm⟩ := checkNums_bool [x, y] b (hmem2 x y b hxy)
    refine ⟨m, ?_⟩
    rw [show schemeRemainder x y = (checkNums [x, y] >>= fun _ =>
      zeroDivToScheme (pyMod x y) >>= fun r =>
      if (numNeg r && Rat.blt 0 (toQ x)) ||
          (Rat.blt 0 (toQ r) && numNeg x) then pure (pySub r y)
      else pure r) from rfl, hm, except_bind_error]
  · intro cmp x y b hxy
    obtain ⟨m, hm⟩ := checkNums_bool [x, y] b (hmem2 x y b hxy)
    refine ⟨m, ?_⟩
    rw [show schemeNumComp cmp x y = (checkNums [x, y] >>= fun _ =>
      pure (.bool (cmp (toQ x) (toQ y)))) from rfl, hm, except_bind_error]

/-- Witness for C9: the checked operators raise on the boolean operand
`#t`; `number?` is false on it. -/
theorem c9_boolean_not_number_witness :
    (∃ m, schemeAdd [.bool true, .int 1] = .error (.scheme m)) ∧
    (∃ m, schemeExpt (.int 2) (.bool false) = .error (.scheme m)) ∧
    (∃ m, schemeNumComp qLt (.bool true) (.int 1) = .error (.scheme m)) ∧
    isSchemeNumber (.bool true) = false := by
  refine ⟨c9_boolean_not_number.2.1 [.bool true, .int 1] true (by simp),
    c9_boolean_not_number.2.2.2.2.2.1 (.int 2) (.bool false) false
      (Or.inr rfl),
    c9_boolean_not_number.2.2.2.2.2.2.2.2.2.1 qLt (.bool true) (.int 1) true
      (Or.inl rfl),
    c9_boolean_not_number.1 true⟩

end TinySCM

namespace TinySCM

/-- Counterexample to claim C10 as stated.  In a global frame where `x`
is bound to 1, evaluating `(define x (begin (set! x 2) y))` raises
`Unbound variable: y` — and the youngest frame's binding for `x` after
the failed define is 2, not the 1 it held before: the evaluation of the
value expression itself mutated it before raising. -/
theorem c10_define_atomicity_cex :
    frameLookup (getFrame [[("x", .int 1)]] 0) "x" = some (.int 1) ∧
    schemeEval 20
      (listV [.sym "define", .sym "x",
        listV [.sym "begin", listV [.sym "set!", .sym "x", .int 2], .sym "y"]])
      [0] false [[("x", .int 1)]]
      = (.error (.scheme "Unbound variable: y"), [[("x", .int 2)]]) ∧
    frameLookup (getFrame [[("x", .int 2)]] 0) "x" = some (.int 2) :=
  ⟨rfl, rfl, rfl⟩

/-- Claim C10, amended.  `define` fully evaluates the value expression
before creating any binding:  (1) if that evaluation raises, the
`define` propagates the error and adds no binding of its own — the
resulting store is exactly the store left by the failed evaluation, so
in particular (2) when the evaluation did not itself disturb the
variable's binding in the youngest frame, that binding is exactly what
it was before the define;  (3) on success the youngest frame is updated
to bind the variable to the value, and the defined symbol is returned,
(4) with the new binding readable back. -/
theorem c10_define_evaluation_order :
    (∀ (ev : EvalFn) (var : String) (valE : Value) (fid : Nat)
        (envr : Env) (st st1 : Store) (e : Err),
        ev valE (fid :: envr) false st = (.error e, st1) →
        evalDefinitionG ev (.pair (.sym var) (.pair valE .nil))
            (fid :: envr) st = (.error e, st1))
    ∧ (∀ (ev : EvalFn) (var : String) (valE : Value) (fid : Nat)
        (envr : Env) (st st1 : Store) (e : Err),
        ev valE (fid :: envr) false st = (.error e, st1) →
        frameLookup (getFrame st1 fid) var = frameLookup (getFrame st fid) var →
        frameLookup
          (getFrame (evalDefinitionG ev (.pair (.sym var) (.pair valE .nil))
            (fid :: envr) st).2 fid) var
          = frameLookup (getFrame st fid) var)
    ∧ (∀ (ev : EvalFn) (var : String) (valE : Value) (fid : Nat)
        (envr : Env) (st st1 : Store) (v : Value),
        ev valE (fid :: envr) false st = (.ok v, st1) →
        evalDefinitionG ev (.pair (.sym var) (.pair valE .nil))
            (fid :: envr) st =
          (.ok (.sym var),
           setFrame st1 fid (frameSet (getFrame st1 fid) var v)))
    ∧ (∀ (f : Frame) (var : String) (v : Value),
        frameLookup (frameSet f var v) var = some v) := by
  have h0 : ∀ (ev : EvalFn) (var : String) (valE : Value) (env : Env)
      (st : Store),
      evalDefinitionG ev (.pair (.sym var) (.pair valE .nil)) env st =
        (ev valE env false >>= fun v =>
          defineVariableV env (.sym var) v >>= fun _ =>
            pure (.sym var)) st := fun _ _ _ _ _ => rfl
  refine ⟨?_, ?_, ?_, frameLookup_frameSet_self⟩
  · intro ev var valE fid envr st st1 e hev
    rw [h0, bind_st, hev]
  · intro ev var valE fid envr st st1 e hev hpres
    rw [h0, bind_st, hev]
    exact hpres
  · intro ev var valE fid envr st st1 v hev
    rw [h0, bind_st, hev]
    show (defineVariableV (fid :: envr) (.sym var) v >>= fun _ =>
      pure (Value.sym var)) st1 = _
    rfl

/-- Witness for C10: the error case leaves the store of the failed
evaluation; the success case binds in the youngest frame. -/
theorem c10_define_evaluation_order_witness :
    evalDefinitionG (fun _ _ _ => raiseM (.scheme "boom"))
      (.pair (.sym "x") (.pair (.int 5) .nil)) [0] [[("x", .int 1)]]
      = (.error (.scheme "boom"), [[("x", .int 1)]]) ∧
    evalDefinitionG (fun _ _ _ => pure (.int 5))
      (.pair (.sym "x") (.pair (.int 5) .nil)) [0] [[("x", .int 1)]]
      = (.ok (.sym "x"), [[("x", .int 5)]]) := by
  refine ⟨c10_define_evaluation_order.1 (fun _ _ _ => raiseM (.scheme "boom"))
    "x" (.int 5) 0 [] [[("x", .int 1)]] [[("x", .int 1)]]
    (.scheme "boom") rfl, ?_⟩
  rw [c10_define_evaluation_order.2.2.1 (fun _ _ _ => pure (.int 5))
    "x" (.int 5) 0 [] [[("x", .int 1)]] [[("x", .int 1)]] (.int 5) rfl]
  rfl

end TinySCM

namespace TinySCM

/-- `expr` on a non-delimiter token returns that token's value and
consumes exactly that token. -/
theorem parseExpr_atom (f : Nat) (t : Token) (rest : List Token)
    (strm : List (List Token)) (h : isAtomTok t = true) :
    parseExpr (f + 1) ⟨t :: rest, strm⟩ =
      .ok (tokenValue t, ⟨rest, strm⟩) := by
  cases t <;> first | rfl | simp [isAtomTok, isDelimiterTok] at h

/-- Claim C8.  `rest_list`:  (1)/(2) an atom element composes with the
parse of the remaining list (success and failure propagate unchanged);
(3) a dot followed by exactly one expression and `)` yields that
expression as the improper tail, consuming through the `)`;
(4) any token other than `)` after the dotted expression raises the
syntax error `expected one element after .`;  (5) a `)` immediately
after the dot is the unexpected-token syntax error (so at least one
expression must follow the dot);  (6) exhausting the input inside a
list raises the syntax error `unexpected end of file`;  (7) `)` closes
the list;  (8) concretely, `a . 5 )` parses to the improper pair
`(a . 5)`, also across a line break. -/
theorem c8_rest_list_dot :
    (∀ (f : Nat) (a : Token) (rest : List Token)
        (strm : List (List Token)) (r : Value) (psf : PState),
        isAtomTok a = true →
        restList (f + 1) ⟨rest, strm⟩ = .ok (r, psf) →
        restList (f + 2) ⟨a :: rest, strm⟩ =
          .ok (.pair (tokenValue a) r, psf))
    ∧ (∀ (f : Nat) (a : Token) (rest : List Token)
        (strm : List (List Token)) (e : Err),
        isAtomTok a = true → e ≠ .eofError →
        restList (f + 1) ⟨rest, strm⟩ = .error e →
        restList (f + 2) ⟨a :: rest, strm⟩ = .error e)
    ∧ (∀ (f : Nat) (b : Token) (tail : List Token)
        (strm : List (List Token)),
        isAtomTok b = true →
        restList (f + 2) ⟨.dot :: b :: .rparen :: tail, strm⟩ =
          .ok (tokenValue b, ⟨tail, strm⟩))
    ∧ (∀ (f : Nat) (b t : Token) (tail : List Token)
        (strm : List (List Token)),
        isAtomTok b = true → t ≠ .rparen →
        restList (f + 2) ⟨.dot :: b :: t :: tail, strm⟩ =
          .error (.synErr "expected one element after ."))
    ∧ (∀ (f : Nat) (tail : List Token) (strm : List (List Token)),
        restList (f + 2) ⟨.dot :: .rparen :: tail, strm⟩ =
          .error (.synErr "unexpected token: )"))
    ∧ (∀ (f : Nat), restList (f + 1) ⟨[], []⟩ =
        .error (.synErr "unexpected end of file"))
    ∧ (∀ (f : Nat) (tail : List Token) (strm : List (List Token)),
        restList (f + 1) ⟨.rparen :: tail, strm⟩ =
          .ok (.nil, ⟨tail, strm⟩))
    ∧ restList 10 ⟨[.symTok "a", .dot, .intTok 5, .rparen], []⟩ =
        .ok (.pair (.sym "a") (.int 5), ⟨[], []⟩)
    ∧ restList 10 ⟨[.symTok "a"], [[], [.dot, .intTok 5, .rparen]]⟩ =
        .ok (.pair (.sym "a") (.int 5), ⟨[], []⟩) := by
  refine ⟨?_, ?_, ?_, ?_, fun _ _ _ => rfl, fun _ => rfl, fun _ _ _ => rfl,
    rfl, rfl⟩
  · intro f a rest strm r psf ha hr
    cases a <;> first
    | (show ((match (restList (f + 1) ⟨rest, strm⟩ >>= fun p =>
          (Except.ok (Value.pair _ p.1, p.2) :
            Except Err (Value × PState))) with
        | .error .eofError => .error (.synErr "unexpected end of file")
        | r => r : Except Err (Value × PState))) = _
       rw [hr]
       rfl)
    | simp [isAtomTok, isDelimiterTok] at ha
  · intro f a rest strm e ha hne hr
    cases a <;> first
    | (show ((match (restList (f + 1) ⟨rest, strm⟩ >>= fun p =>
          (Except.ok (Value.pair _ p.1, p.2) :
            Except Err (Value × PState))) with
        | .error .eofError => .error (.synErr "unexpected end of file")
        | r => r : Except Err (Value × PState))) = _
       rw [hr]
       cases e <;> first | rfl | exact absurd rfl hne)
    | simp [isAtomTok, isDelimiterTok] at ha
  · intro f b tail strm hb
    cases b <;> first | rfl | simp [isAtomTok, isDelimiterTok] at hb
  · intro f b t tail strm hb ht
    cases b <;> first
    | (cases t <;> first | exact absurd rfl ht | rfl)
    | simp [isAtomTok, isDelimiterTok] at hb

/-- Witness for C8: the composing conjuncts applied at concrete tokens
(the improper list `(a . 5)`, the double-expression error, and the
end-of-file error reached one element into a list). -/
theorem c8_rest_list_dot_witness :
    restList 5 ⟨[.symTok "a", .dot, .intTok 5, .rparen], []⟩ =
      .ok (.pair (.sym "a") (.int 5), ⟨[], []⟩) ∧
    restList 5 ⟨[.dot, .intTok 5, .intTok 6, .rparen], []⟩ =
      .error (.synErr "expected one element after .") ∧
    restList 5 ⟨[.symTok "a"], []⟩ =
      .error (.synErr "unexpected end of file") := by
  refine ⟨?_, ?_, ?_⟩
  · exact c8_rest_list_dot.1 3 (.symTok "a") [.dot, .intTok 5, .rparen] []
      (.int 5) ⟨[], []⟩ rfl
      (c8_rest_list_dot.2.2.1 2 (.intTok 5) [] [] rfl)
  · exact c8_rest_list_dot.2.2.2.1 3 (.intTok 5) (.intTok 6) [.rparen] []
      rfl (by decide)
  · exact c8_rest_list_dot.2.1 3 (.symTok "a") [] [] (.synErr
      "unexpected end of file") rfl (by decide)
      (c8_rest_list_dot.2.2.2.2.2.1 3)

end TinySCM
